import Mathlib

/-
  Verification of the persistent points-to data-structure family of
  include/MemoryModel/PersistentPointsToDS.h.

  Keys, Data, LocIDs and VersionedKeys are opaque identifiers in the source;
  we model each as Nat.  DataSets are finite sets of Data (Finset Nat).
-/

set_option maxRecDepth 4000

/-- Modelled from the spec: the interning points-to cache
(`PersistentPointsToCache`, declared in PersistentPointsToCache.h, which is not
part of the supplied source).  Per §4.1/§6 of the spec it is a pure,
deterministic hash-cons: equal sets receive equal IDs (P2, invariant 5),
`EMPTY_ID` is the unique handle of the empty set (invariant 6), and
`unionPts`/`intersectPts`/`complementPts` are exact set algebra on IDs.
Since IDs are in bijection with interned sets, we model a `PointsToID` as the
canonical interned set itself, so that ID equality coincides with set
equality exactly as the contract requires. -/
abbrev PointsToID := Finset Nat

namespace PersistentPointsToCache

/-- Modelled from the spec: `emptyPointsToId()` — the distinguished handle of ∅. -/
def emptyPointsToId : PointsToID := ∅

/-- Modelled from the spec: `emplacePts(set)` — hash-consing intern; equal sets
yield the same id, so in the bijective model the id is the set itself. -/
def emplacePts (s : Finset Nat) : PointsToID := s

/-- Modelled from the spec: `getActualPts(id)` — reverse lookup of the interned set. -/
def getActualPts (i : PointsToID) : Finset Nat := i

/-- Modelled from the spec: `unionPts(a, b)` — exact union on IDs. -/
def unionPts (a b : PointsToID) : PointsToID := a ∪ b

/-- Modelled from the spec: `intersectPts(a, b)` — exact intersection on IDs. -/
def intersectPts (a b : PointsToID) : PointsToID := a ∩ b

/-- Modelled from the spec: `complementPts(a, b)` — exact difference `a \ b` on IDs. -/
def complementPts (a b : PointsToID) : PointsToID := a \ b

end PersistentPointsToCache

/-!  ## A computable ascending enumeration of a finite set

The C++ maps are enumerated by iterating their entries; the enumeration order
is irrelevant to every property proved here, so we fix an ascending order.
(`Finset.sort` is implemented with `mergeSort`, which does not reduce inside
the kernel; an insertion sort lifted to the multiset quotient does.) -/

def msortAsc (m : Multiset Nat) : List Nat :=
  Quot.liftOn m (fun l => l.insertionSort (· ≤ ·))
    (fun l1 l2 hp => List.eq_of_perm_of_sorted
      ((List.perm_insertionSort _ l1).trans (hp.trans (List.perm_insertionSort _ l2).symm))
      (List.sorted_insertionSort _ l1) (List.sorted_insertionSort _ l2))

theorem msortAsc_coe (m : Multiset Nat) : ((msortAsc m : List Nat) : Multiset Nat) = m := by
  induction m using Quot.inductionOn with
  | _ l => exact Multiset.coe_eq_coe.mpr (List.perm_insertionSort _ l)

def fsort (s : Finset Nat) : List Nat := msortAsc s.val

theorem mem_fsort (s : Finset Nat) (x : Nat) : x ∈ fsort s ↔ x ∈ s := by
  have h := msortAsc_coe s.val
  constructor
  · intro hx
    have h2 : x ∈ ((fsort s : List Nat) : Multiset Nat) := Multiset.mem_coe.mpr hx
    rw [fsort] at h2
    rw [h] at h2
    exact h2
  · intro hx
    have h2 : x ∈ ((fsort s : List Nat) : Multiset Nat) := by
      rw [fsort, h]
      exact hx
    exact Multiset.mem_coe.mp h2

theorem fsort_nodup (s : Finset Nat) : (fsort s).Nodup := by
  have h : Multiset.Nodup ((fsort s : List Nat) : Multiset Nat) := by
    rw [fsort, msortAsc_coe s.val]
    exact s.nodup
  exact Multiset.coe_nodup.mp h

theorem fsort_toFinset (s : Finset Nat) : (fsort s).toFinset = s := by
  apply Finset.ext
  intro a
  rw [List.mem_toFinset, mem_fsort]

theorem fsort_empty : fsort ∅ = [] := rfl

/-!  ## Key → PointsToID maps

`Map<Key, PointsToID>` (`KeyToIDMap` in the source, a hash map) is modelled as
a finite domain of present keys together with a valuation.  `operator[]` on an
absent key value-initialises the entry (`EMPTY_ID`); `get` reads the stored id
(or `EMPTY_ID` when absent) and `touch` records the entry-creating read. -/

structure IDMap where
  dom : Finset Nat
  val : Nat → PointsToID

def IDMap.empty : IDMap := ⟨∅, fun _ => PersistentPointsToCache.emptyPointsToId⟩

def IDMap.get (m : IDMap) (k : Nat) : PointsToID :=
  if k ∈ m.dom then m.val k else PersistentPointsToCache.emptyPointsToId

def IDMap.set (m : IDMap) (k : Nat) (v : PointsToID) : IDMap :=
  ⟨insert k m.dom, fun x => if x = k then v else m.val x⟩

/-- `operator[]` read: creates the entry with `EMPTY_ID` when absent. -/
def IDMap.touch (m : IDMap) (k : Nat) : IDMap :=
  if k ∈ m.dom then m else m.set k PersistentPointsToCache.emptyPointsToId

def IDMap.contains (m : IDMap) (k : Nat) : Bool := decide (k ∈ m.dom)

/-- The `(key, id)` entries of the map, enumerated in a fixed order. -/
def IDMap.entries (m : IDMap) : List (Nat × PointsToID) :=
  (fsort m.dom).map (fun k => (k, m.get k))

theorem IDMap.get_set (m : IDMap) (k : Nat) (v : PointsToID) (x : Nat) :
    (m.set k v).get x = if x = k then v else m.get x := by
  unfold IDMap.get IDMap.set
  by_cases h : x = k
  · simp [h]
  · simp [h, Finset.mem_insert]

theorem IDMap.get_touch (m : IDMap) (k x : Nat) :
    (m.touch k).get x = m.get x := by
  unfold IDMap.touch
  by_cases hk : k ∈ m.dom
  · simp [hk]
  · simp only [hk, if_neg, ite_false, IDMap.get_set]
    by_cases hx : x = k
    · subst hx
      simp [IDMap.get, hk]
    · simp [hx]

theorem IDMap.dom_set (m : IDMap) (k : Nat) (v : PointsToID) :
    (m.set k v).dom = insert k m.dom := rfl

theorem IDMap.dom_touch (m : IDMap) (k : Nat) :
    (m.touch k).dom = insert k m.dom := by
  unfold IDMap.touch
  by_cases hk : k ∈ m.dom
  · simp [hk, Finset.insert_eq_self.mpr hk]
  · simp [hk, IDMap.dom_set]

/-!  ## LocID → (Key → PointsToID) maps (`DFKeyToIDMap`) -/

structure DFMap where
  dom : Finset Nat
  val : Nat → IDMap

def DFMap.empty : DFMap := ⟨∅, fun _ => IDMap.empty⟩

def DFMap.get (m : DFMap) (l : Nat) : IDMap :=
  if l ∈ m.dom then m.val l else IDMap.empty

def DFMap.set (m : DFMap) (l : Nat) (im : IDMap) : DFMap :=
  ⟨insert l m.dom, fun x => if x = l then im else m.val x⟩

/-- `map[loc][var]` as an entry-creating read: creates the location's inner map
and the key's entry when absent. -/
def DFMap.touch2 (m : DFMap) (l k : Nat) : DFMap :=
  m.set l ((m.get l).touch k)

def DFMap.set2 (m : DFMap) (l k : Nat) (v : PointsToID) : DFMap :=
  m.set l ((m.get l).set k v)

def DFMap.get2 (m : DFMap) (l k : Nat) : PointsToID := (m.get l).get k

def DFMap.containsLoc (m : DFMap) (l : Nat) : Bool := decide (l ∈ m.dom)

def DFMap.contains2 (m : DFMap) (l k : Nat) : Bool := (m.get l).contains k

theorem DFMap.getLoc_set (m : DFMap) (l : Nat) (im : IDMap) (x : Nat) :
    (m.set l im).get x = if x = l then im else m.get x := by
  unfold DFMap.get DFMap.set
  by_cases h : x = l
  · simp [h]
  · simp [h, Finset.mem_insert]

theorem DFMap.get2_set2 (m : DFMap) (l k : Nat) (v : PointsToID) (x y : Nat) :
    (m.set2 l k v).get2 x y =
      if x = l ∧ y = k then v else m.get2 x y := by
  unfold DFMap.set2 DFMap.get2
  rw [DFMap.getLoc_set]
  by_cases hx : x = l
  · subst hx
    rw [if_pos rfl, IDMap.get_set]
    by_cases hy : y = k
    · simp [hy]
    · simp [hy]
  · simp [hx]

theorem DFMap.get2_touch2 (m : DFMap) (l k x y : Nat) :
    (m.touch2 l k).get2 x y = m.get2 x y := by
  unfold DFMap.touch2 DFMap.get2
  rw [DFMap.getLoc_set]
  by_cases hx : x = l
  · subst hx
    rw [if_pos rfl, IDMap.get_touch]
  · simp [hx]

theorem DFMap.dom_touch2 (m : DFMap) (l k : Nat) :
    (m.touch2 l k).dom = insert l m.dom := rfl

theorem DFMap.dom_set2 (m : DFMap) (l k : Nat) (v : PointsToID) :
    (m.set2 l k v).dom = insert l m.dom := rfl

theorem DFMap.get_dom_set2_same (m : DFMap) (l k : Nat) (v : PointsToID) :
    ((m.set2 l k v).get l).dom = insert k (m.get l).dom := by
  unfold DFMap.set2
  rw [DFMap.getLoc_set, if_pos rfl, IDMap.dom_set]

theorem DFMap.get_dom_touch2_same (m : DFMap) (l k : Nat) :
    ((m.touch2 l k).get l).dom = insert k (m.get l).dom := by
  unfold DFMap.touch2
  rw [DFMap.getLoc_set, if_pos rfl, IDMap.dom_touch]

/-!  ## PersistentPTData — the basic persistent store -/

structure PersistentPTData where
  rev : Bool
  ptsMap : IDMap
  revPtsMap : Nat → Finset Nat

namespace PersistentPTData

/-- A freshly constructed store: empty maps, the given reverse flag. -/
def init (reversePT : Bool) : PersistentPTData :=
  { rev := reversePT, ptsMap := IDMap.empty, revPtsMap := fun _ => ∅ }

def clear (st : PersistentPTData) : PersistentPTData :=
  { st with ptsMap := IDMap.empty, revPtsMap := fun _ => ∅ }

/-- The materialised points-to set of `var` (the value `getPts` returns). -/
def getPtsVal (st : PersistentPTData) (var : Nat) : Finset Nat :=
  PersistentPointsToCache.getActualPts (st.ptsMap.get var)

/-- `getPts` reads `ptsMap[var]` through `operator[]`, creating the entry. -/
def getPts (st : PersistentPTData) (var : Nat) : PersistentPTData × Finset Nat :=
  ({ st with ptsMap := st.ptsMap.touch var }, st.getPtsVal var)

/-- The reverse points-to set of `data` (the value `getRevPts` returns;
precondition in the source: `rev` is enabled). -/
def getRevPtsVal (st : PersistentPTData) (data : Nat) : Finset Nat :=
  st.revPtsMap data

/-- Internal `unionPtsFromId`: read `ptsMap[dstKey]`, union with `srcId`
through the cache, store the result when it changed, and in that case insert
`dstKey` into the reverse map of every element of the source set. -/
def unionPtsFromId (st : PersistentPTData) (dstKey : Nat) (srcId : PointsToID) :
    PersistentPTData × Bool :=
  let st0 := { st with ptsMap := st.ptsMap.touch dstKey }
  let dstId := st0.ptsMap.get dstKey
  let newDstId := PersistentPointsToCache.unionPts dstId srcId
  if newDstId ≠ dstId then
    let st1 := { st0 with ptsMap := st0.ptsMap.set dstKey newDstId }
    let st2 :=
      if st1.rev then
        { st1 with
          revPtsMap := fun d =>
            if d ∈ PersistentPointsToCache.getActualPts srcId then
              insert dstKey (st1.revPtsMap d)
            else st1.revPtsMap d }
      else st1
    (st2, true)
  else (st0, false)

def addPts (st : PersistentPTData) (dstKey element : Nat) :
    PersistentPTData × Bool :=
  st.unionPtsFromId dstKey (PersistentPointsToCache.emplacePts {element})

def unionPts (st : PersistentPTData) (dstKey srcKey : Nat) :
    PersistentPTData × Bool :=
  let st0 := { st with ptsMap := st.ptsMap.touch srcKey }
  st0.unionPtsFromId dstKey (st0.ptsMap.get srcKey)

def unionPtsSet (st : PersistentPTData) (dstKey : Nat) (srcData : Finset Nat) :
    PersistentPTData × Bool :=
  st.unionPtsFromId dstKey (PersistentPointsToCache.emplacePts srcData)

def clearPts (st : PersistentPTData) (var element : Nat) : PersistentPTData :=
  let toRemoveId := PersistentPointsToCache.emplacePts {element}
  let st0 := { st with ptsMap := st.ptsMap.touch var }
  let varId := st0.ptsMap.get var
  let complementId := PersistentPointsToCache.complementPts varId toRemoveId
  if varId ≠ complementId then
    let st1 := { st0 with ptsMap := st0.ptsMap.set var complementId }
    if st1.rev then
      { st1 with
        revPtsMap := fun d =>
          if d = element then (st1.revPtsMap d).erase var else st1.revPtsMap d }
    else st1
  else st0

def clearFullPts (st : PersistentPTData) (var : Nat) : PersistentPTData :=
  let st0 := { st with ptsMap := st.ptsMap.touch var }
  let pts := st0.ptsMap.get var
  let st1 :=
    if st0.rev then
      { st0 with
        revPtsMap := fun d =>
          if d ∈ PersistentPointsToCache.getActualPts pts then
            (st0.revPtsMap d).erase var
          else st0.revPtsMap d }
    else st0
  { st1 with ptsMap := st1.ptsMap.set var PersistentPointsToCache.emptyPointsToId }

end PersistentPTData

/-!  ## The statistics helper `topN`

The source counts, across the given Key→ID maps, how many entries carry each
non-empty points-to id (`Map<PointsToID, u64_t> ptCounts`, plus the running
total `keys`), sorts the counts descending and sums the first `n`. -/

/-- `++ptCounts[id]` on an association-list counter: increment the entry of
`i`, creating it with count 1 when absent. -/
def bumpCount : List (PointsToID × Nat) → PointsToID → List (PointsToID × Nat)
  | [], i => [(i, 1)]
  | (j, c) :: t, i => if j = i then (j, c + 1) :: t else (j, c) :: bumpCount t i

/-- One loop iteration of the source's counting loop: skip `EMPTY_ID`
entries, otherwise bump the id's count and the total. -/
def countStep (acc : List (PointsToID × Nat) × Nat) (pr : Nat × PointsToID) :
    List (PointsToID × Nat) × Nat :=
  if pr.2 ≠ PersistentPointsToCache.emptyPointsToId then
    (bumpCount acc.1 pr.2, acc.2 + 1)
  else acc

/-- `std::sort(counts.begin(), counts.end(), std::greater<>())`. -/
def sortDesc (l : List Nat) : List Nat := l.insertionSort (· ≥ ·)

/-- The common body of every `topN` implementation, over the list of
Key→ID maps it enumerates. -/
def topNPair (n : Nat) (maps : List IDMap) : Nat × Nat :=
  let entries := (maps.map IDMap.entries).flatten
  let r := entries.foldl countStep ([], 0)
  (((sortDesc (r.1.map Prod.snd)).take n).sum, r.2)

def PersistentPTData.topN (st : PersistentPTData) (n : Nat) : Nat × Nat :=
  topNPair n [st.ptsMap]

/-!  ## PersistentDiffPTData -/

structure PersistentDiffPTData where
  persPTData : PersistentPTData
  diffPtsMap : IDMap
  propaPtsMap : IDMap

namespace PersistentDiffPTData

def init (reversePT : Bool) : PersistentDiffPTData :=
  { persPTData := PersistentPTData.init reversePT,
    diffPtsMap := IDMap.empty, propaPtsMap := IDMap.empty }

def clear (st : PersistentDiffPTData) : PersistentDiffPTData :=
  { persPTData := st.persPTData.clear,
    diffPtsMap := IDMap.empty, propaPtsMap := IDMap.empty }

def getPtsVal (st : PersistentDiffPTData) (var : Nat) : Finset Nat :=
  st.persPTData.getPtsVal var

def addPts (st : PersistentDiffPTData) (dstKey element : Nat) :
    PersistentDiffPTData × Bool :=
  let r := st.persPTData.addPts dstKey element
  ({ st with persPTData := r.1 }, r.2)

def unionPts (st : PersistentDiffPTData) (dstKey srcKey : Nat) :
    PersistentDiffPTData × Bool :=
  let r := st.persPTData.unionPts dstKey srcKey
  ({ st with persPTData := r.1 }, r.2)

def unionPtsSet (st : PersistentDiffPTData) (dstKey : Nat) (srcData : Finset Nat) :
    PersistentDiffPTData × Bool :=
  let r := st.persPTData.unionPtsSet dstKey srcData
  ({ st with persPTData := r.1 }, r.2)

def getDiffPtsVal (st : PersistentDiffPTData) (var : Nat) : Finset Nat :=
  PersistentPointsToCache.getActualPts (st.diffPtsMap.get var)

def getPropaVal (st : PersistentDiffPTData) (var : Nat) : Finset Nat :=
  PersistentPointsToCache.getActualPts (st.propaPtsMap.get var)

/-- `computeDiffPts(var, all)`: diff := all ∖ propagated, propagated := all,
return whether the diff id is not `EMPTY_ID`. -/
def computeDiffPts (st : PersistentDiffPTData) (var : Nat) (all : Finset Nat) :
    PersistentDiffPTData × Bool :=
  let st0 := { st with propaPtsMap := st.propaPtsMap.touch var }
  let propaId := st0.propaPtsMap.get var
  let allId := PersistentPointsToCache.emplacePts all
  let diffId := PersistentPointsToCache.complementPts allId propaId
  let st1 := { st0 with diffPtsMap := st0.diffPtsMap.set var diffId }
  let st2 := { st1 with propaPtsMap := st1.propaPtsMap.set var allId }
  (st2, decide (diffId ≠ PersistentPointsToCache.emptyPointsToId))

def updatePropaPtsMap (st : PersistentDiffPTData) (src dst : Nat) :
    PersistentDiffPTData :=
  let st0 := { st with propaPtsMap := (st.propaPtsMap.touch dst).touch src }
  let dstId := st0.propaPtsMap.get dst
  let srcId := st0.propaPtsMap.get src
  { st0 with
    propaPtsMap :=
      st0.propaPtsMap.set dst (PersistentPointsToCache.intersectPts dstId srcId) }

def clearPropaPts (st : PersistentDiffPTData) (var : Nat) : PersistentDiffPTData :=
  { st with
    propaPtsMap := st.propaPtsMap.set var PersistentPointsToCache.emptyPointsToId }

/-- `PersistentDiffPTData::topN` delegates to the embedded basic store. -/
def topN (st : PersistentDiffPTData) (n : Nat) : Nat × Nat :=
  st.persPTData.topN n

end PersistentDiffPTData

/-!  ## PersistentDFPTData -/

structure PersistentDFPTData where
  persPTData : PersistentPTData
  dfInPtsMap : DFMap
  dfOutPtsMap : DFMap

namespace PersistentDFPTData

def init (reversePT : Bool) : PersistentDFPTData :=
  { persPTData := PersistentPTData.init reversePT,
    dfInPtsMap := DFMap.empty, dfOutPtsMap := DFMap.empty }

/-- `PersistentDFPTData::clear` — the source only clears the embedded basic
store (its own TODO concedes `dfIn`/`dfOut` are left untouched). -/
def clear (st : PersistentDFPTData) : PersistentDFPTData :=
  { st with persPTData := st.persPTData.clear }

def getPtsVal (st : PersistentDFPTData) (var : Nat) : Finset Nat :=
  st.persPTData.getPtsVal var

def addPts (st : PersistentDFPTData) (dstKey element : Nat) :
    PersistentDFPTData × Bool :=
  let r := st.persPTData.addPts dstKey element
  ({ st with persPTData := r.1 }, r.2)

def unionPts (st : PersistentDFPTData) (dstKey srcKey : Nat) :
    PersistentDFPTData × Bool :=
  let r := st.persPTData.unionPts dstKey srcKey
  ({ st with persPTData := r.1 }, r.2)

def unionPtsSet (st : PersistentDFPTData) (dstKey : Nat) (srcData : Finset Nat) :
    PersistentDFPTData × Bool :=
  let r := st.persPTData.unionPtsSet dstKey srcData
  ({ st with persPTData := r.1 }, r.2)

def hasDFInSet (st : PersistentDFPTData) (loc : Nat) : Bool :=
  st.dfInPtsMap.containsLoc loc

def hasDFOutSet (st : PersistentDFPTData) (loc : Nat) : Bool :=
  st.dfOutPtsMap.containsLoc loc

def hasDFInSetVar (st : PersistentDFPTData) (loc var : Nat) : Bool :=
  st.dfInPtsMap.contains2 loc var

def hasDFOutSetVar (st : PersistentDFPTData) (loc var : Nat) : Bool :=
  st.dfOutPtsMap.contains2 loc var

/-- The materialised IN set at `(loc, var)`. -/
def dfInVal (st : PersistentDFPTData) (loc var : Nat) : Finset Nat :=
  PersistentPointsToCache.getActualPts (st.dfInPtsMap.get2 loc var)

/-- The materialised OUT set at `(loc, var)`. -/
def dfOutVal (st : PersistentDFPTData) (loc var : Nat) : Finset Nat :=
  PersistentPointsToCache.getActualPts (st.dfOutPtsMap.get2 loc var)

/-- `updateDFInFromIn`: `dfIn[dL][dK] ∪= dfIn[sL][sK]` through
`unionPtsThroughIds` (which writes the union back unconditionally and reports
whether the destination id moved).  `getDF*PtIdRef` creates absent entries. -/
def updateDFInFromIn (st : PersistentDFPTData) (srcLoc srcVar dstLoc dstVar : Nat) :
    PersistentDFPTData × Bool :=
  let m0 := (st.dfInPtsMap.touch2 dstLoc dstVar).touch2 srcLoc srcVar
  let src := m0.get2 srcLoc srcVar
  let oldDst := m0.get2 dstLoc dstVar
  let newDst := PersistentPointsToCache.unionPts oldDst src
  ({ st with dfInPtsMap := m0.set2 dstLoc dstVar newDst },
   decide (newDst ≠ oldDst))

def updateDFInFromOut (st : PersistentDFPTData) (srcLoc srcVar dstLoc dstVar : Nat) :
    PersistentDFPTData × Bool :=
  let mIn := st.dfInPtsMap.touch2 dstLoc dstVar
  let mOut := st.dfOutPtsMap.touch2 srcLoc srcVar
  let src := mOut.get2 srcLoc srcVar
  let oldDst := mIn.get2 dstLoc dstVar
  let newDst := PersistentPointsToCache.unionPts oldDst src
  ({ st with dfInPtsMap := mIn.set2 dstLoc dstVar newDst, dfOutPtsMap := mOut },
   decide (newDst ≠ oldDst))

def updateDFOutFromIn (st : PersistentDFPTData) (srcLoc srcVar dstLoc dstVar : Nat) :
    PersistentDFPTData × Bool :=
  let mOut := st.dfOutPtsMap.touch2 dstLoc dstVar
  let mIn := st.dfInPtsMap.touch2 srcLoc srcVar
  let src := mIn.get2 srcLoc srcVar
  let oldDst := mOut.get2 dstLoc dstVar
  let newDst := PersistentPointsToCache.unionPts oldDst src
  ({ st with dfOutPtsMap := mOut.set2 dstLoc dstVar newDst, dfInPtsMap := mIn },
   decide (newDst ≠ oldDst))

/-- In the non-incremental store the "All" variant is an exact alias. -/
def updateAllDFInFromIn (st : PersistentDFPTData) (srcLoc srcVar dstLoc dstVar : Nat) :
    PersistentDFPTData × Bool :=
  st.updateDFInFromIn srcLoc srcVar dstLoc dstVar

def updateAllDFInFromOut (st : PersistentDFPTData) (srcLoc srcVar dstLoc dstVar : Nat) :
    PersistentDFPTData × Bool :=
  st.updateDFInFromOut srcLoc srcVar dstLoc dstVar

/-- One iteration of `updateAllDFOutFromIn`'s loop. -/
def allOutStep (loc singleton : Nat) (strongUpdates : Bool)
    (acc : PersistentDFPTData × Bool) (var : Nat) : PersistentDFPTData × Bool :=
  if strongUpdates = true ∧ var = singleton then acc
  else
    let r := acc.1.updateDFOutFromIn loc var loc var
    (r.1, acc.2 || r.2)

/-- `updateAllDFOutFromIn(loc, singleton, strongUpdates)`: for every key with
an entry in `dfIn[loc]`, unless the strong-update singleton, transfer IN to
OUT at `loc`; report whether any destination changed. -/
def updateAllDFOutFromIn (st : PersistentDFPTData) (loc singleton : Nat)
    (strongUpdates : Bool) : PersistentDFPTData × Bool :=
  if st.hasDFInSet loc then
    (fsort (st.dfInPtsMap.get loc).dom).foldl
      (allOutStep loc singleton strongUpdates) (st, false)
  else (st, false)

/-- `updateTLVPts`: `pts[dstVar] ∪= dfIn[srcLoc][srcVar]`, writing through the
top-level id slot directly (no reverse-map maintenance). -/
def updateTLVPts (st : PersistentDFPTData) (srcLoc srcVar dstVar : Nat) :
    PersistentDFPTData × Bool :=
  let p0 := st.persPTData.ptsMap.touch dstVar
  let mIn := st.dfInPtsMap.touch2 srcLoc srcVar
  let src := mIn.get2 srcLoc srcVar
  let oldDst := p0.get dstVar
  let newDst := PersistentPointsToCache.unionPts oldDst src
  ({ st with
      persPTData := { st.persPTData with ptsMap := p0.set dstVar newDst },
      dfInPtsMap := mIn },
   decide (newDst ≠ oldDst))

/-- `updateATVPts`: `dfOut[dstLoc][dstVar] ∪= pts[srcVar]`. -/
def updateATVPts (st : PersistentDFPTData) (srcVar dstLoc dstVar : Nat) :
    PersistentDFPTData × Bool :=
  let p0 := st.persPTData.ptsMap.touch srcVar
  let mOut := st.dfOutPtsMap.touch2 dstLoc dstVar
  let src := p0.get srcVar
  let oldDst := mOut.get2 dstLoc dstVar
  let newDst := PersistentPointsToCache.unionPts oldDst src
  ({ st with
      persPTData := { st.persPTData with ptsMap := p0 },
      dfOutPtsMap := mOut.set2 dstLoc dstVar newDst },
   decide (newDst ≠ oldDst))

/-- The inner Key→ID maps of a location map, in enumeration order. -/
def DFMapInnerMaps (m : DFMap) : List IDMap :=
  (fsort m.dom).map m.val

/-- `PersistentDFPTData::topN` enumerates the top-level pts map and every
per-location IN and OUT map. -/
def topN (st : PersistentDFPTData) (n : Nat) : Nat × Nat :=
  topNPair n
    (st.persPTData.ptsMap ::
      (DFMapInnerMaps st.dfInPtsMap ++ DFMapInnerMaps st.dfOutPtsMap))

end PersistentDFPTData

/-!  ## PersistentIncDFPTData -/

structure PersistentIncDFPTData where
  df : PersistentDFPTData
  outUpdatedVarMap : Nat → Finset Nat
  inUpdatedVarMap : Nat → Finset Nat

namespace PersistentIncDFPTData

def init (reversePT : Bool) : PersistentIncDFPTData :=
  { df := PersistentDFPTData.init reversePT,
    outUpdatedVarMap := fun _ => ∅, inUpdatedVarMap := fun _ => ∅ }

/-- `clear` is inherited from `PersistentDFPTData` (so neither the IN/OUT
maps nor the dirty sets are emptied). -/
def clear (st : PersistentIncDFPTData) : PersistentIncDFPTData :=
  { st with df := st.df.clear }

def dfInValI (st : PersistentIncDFPTData) (loc var : Nat) : Finset Nat :=
  st.df.dfInVal loc var

def dfOutValI (st : PersistentIncDFPTData) (loc var : Nat) : Finset Nat :=
  st.df.dfOutVal loc var

def setVarDFInSetUpdated (st : PersistentIncDFPTData) (loc var : Nat) :
    PersistentIncDFPTData :=
  { st with
    inUpdatedVarMap := fun l =>
      if l = loc then insert var (st.inUpdatedVarMap l) else st.inUpdatedVarMap l }

def removeVarFromDFInUpdatedSet (st : PersistentIncDFPTData) (loc var : Nat) :
    PersistentIncDFPTData :=
  { st with
    inUpdatedVarMap := fun l =>
      if l = loc then (st.inUpdatedVarMap l).erase var else st.inUpdatedVarMap l }

def varHasNewDFInPts (st : PersistentIncDFPTData) (loc var : Nat) : Bool :=
  decide (var ∈ st.inUpdatedVarMap loc)

def setVarDFOutSetUpdated (st : PersistentIncDFPTData) (loc var : Nat) :
    PersistentIncDFPTData :=
  { st with
    outUpdatedVarMap := fun l =>
      if l = loc then insert var (st.outUpdatedVarMap l) else st.outUpdatedVarMap l }

def removeVarFromDFOutUpdatedSet (st : PersistentIncDFPTData) (loc var : Nat) :
    PersistentIncDFPTData :=
  { st with
    outUpdatedVarMap := fun l =>
      if l = loc then (st.outUpdatedVarMap l).erase var else st.outUpdatedVarMap l }

def varHasNewDFOutPts (st : PersistentIncDFPTData) (loc var : Nat) : Bool :=
  decide (var ∈ st.outUpdatedVarMap loc)

/-- Incremental `updateDFInFromIn`: only when the source is IN-dirty; on a
real change, mark the destination IN-dirty. -/
def updateDFInFromIn (st : PersistentIncDFPTData) (srcLoc srcVar dstLoc dstVar : Nat) :
    PersistentIncDFPTData × Bool :=
  if st.varHasNewDFInPts srcLoc srcVar then
    let r := st.df.updateDFInFromIn srcLoc srcVar dstLoc dstVar
    let st1 := { st with df := r.1 }
    if r.2 then (st1.setVarDFInSetUpdated dstLoc dstVar, true) else (st1, false)
  else (st, false)

/-- Incremental `updateDFInFromOut`: only when the source is OUT-dirty; on a
real change, mark the destination IN-dirty. -/
def updateDFInFromOut (st : PersistentIncDFPTData) (srcLoc srcVar dstLoc dstVar : Nat) :
    PersistentIncDFPTData × Bool :=
  if st.varHasNewDFOutPts srcLoc srcVar then
    let r := st.df.updateDFInFromOut srcLoc srcVar dstLoc dstVar
    let st1 := { st with df := r.1 }
    if r.2 then (st1.setVarDFInSetUpdated dstLoc dstVar, true) else (st1, false)
  else (st, false)

/-- Incremental `updateDFOutFromIn`: only when the source is IN-dirty; the
dirty flag is consumed *before* the union, and on a real change the
destination is marked OUT-dirty. -/
def updateDFOutFromIn (st : PersistentIncDFPTData) (srcLoc srcVar dstLoc dstVar : Nat) :
    PersistentIncDFPTData × Bool :=
  if st.varHasNewDFInPts srcLoc srcVar then
    let st0 := st.removeVarFromDFInUpdatedSet srcLoc srcVar
    let r := st0.df.updateDFOutFromIn srcLoc srcVar dstLoc dstVar
    let st1 := { st0 with df := r.1 }
    if r.2 then (st1.setVarDFOutSetUpdated dstLoc dstVar, true) else (st1, false)
  else (st, false)

/-- Incremental `updateAllDFInFromOut`: unconditional union, destination
marked IN-dirty on change. -/
def updateAllDFInFromOut (st : PersistentIncDFPTData) (srcLoc srcVar dstLoc dstVar : Nat) :
    PersistentIncDFPTData × Bool :=
  let r := st.df.updateDFInFromOut srcLoc srcVar dstLoc dstVar
  let st1 := { st with df := r.1 }
  if r.2 then (st1.setVarDFInSetUpdated dstLoc dstVar, true) else (st1, false)

/-- Incremental `updateAllDFInFromIn`: unconditional union, destination
marked IN-dirty on change. -/
def updateAllDFInFromIn (st : PersistentIncDFPTData) (srcLoc srcVar dstLoc dstVar : Nat) :
    PersistentIncDFPTData × Bool :=
  let r := st.df.updateDFInFromIn srcLoc srcVar dstLoc dstVar
  let st1 := { st with df := r.1 }
  if r.2 then (st1.setVarDFInSetUpdated dstLoc dstVar, true) else (st1, false)

/-- One iteration of the incremental `updateAllDFOutFromIn` loop. -/
def allOutStepI (loc singleton : Nat) (strongUpdates : Bool)
    (acc : PersistentIncDFPTData × Bool) (var : Nat) :
    PersistentIncDFPTData × Bool :=
  if strongUpdates = true ∧ var = singleton then acc
  else
    let r := acc.1.updateDFOutFromIn loc var loc var
    (r.1, acc.2 || r.2)

/-- Incremental `updateAllDFOutFromIn`: iterate a snapshot of `loc`'s IN-dirty
variables (`const KeySet vars = getDFInUpdatedVar(loc)`), honouring strong
updates. -/
def updateAllDFOutFromIn (st : PersistentIncDFPTData) (loc singleton : Nat)
    (strongUpdates : Bool) : PersistentIncDFPTData × Bool :=
  if st.df.hasDFInSet loc then
    (fsort (st.inUpdatedVarMap loc)).foldl
      (allOutStepI loc singleton strongUpdates) (st, false)
  else (st, false)

/-- Incremental `updateTLVPts`: guarded on the source's IN-dirty flag, which
is consumed; no destination dirty mark. -/
def updateTLVPts (st : PersistentIncDFPTData) (srcLoc srcVar dstVar : Nat) :
    PersistentIncDFPTData × Bool :=
  if st.varHasNewDFInPts srcLoc srcVar then
    let st0 := st.removeVarFromDFInUpdatedSet srcLoc srcVar
    let r := st0.df.updateTLVPts srcLoc srcVar dstVar
    ({ st0 with df := r.1 }, r.2)
  else (st, false)

/-- Incremental `updateATVPts`: unconditional union, destination marked
OUT-dirty on change. -/
def updateATVPts (st : PersistentIncDFPTData) (srcVar dstLoc dstVar : Nat) :
    PersistentIncDFPTData × Bool :=
  let r := st.df.updateATVPts srcVar dstLoc dstVar
  let st1 := { st with df := r.1 }
  if r.2 then (st1.setVarDFOutSetUpdated dstLoc dstVar, true) else (st1, false)

end PersistentIncDFPTData

/-!  ## PersistentVersionedPTData -/

structure PersistentVersionedPTData where
  tlPTData : PersistentPTData
  atPTData : PersistentPTData

namespace PersistentVersionedPTData

def init (reversePT : Bool) : PersistentVersionedPTData :=
  { tlPTData := PersistentPTData.init reversePT,
    atPTData := PersistentPTData.init reversePT }

def clear (st : PersistentVersionedPTData) : PersistentVersionedPTData :=
  { tlPTData := st.tlPTData.clear, atPTData := st.atPTData.clear }

def getPtsVal (st : PersistentVersionedPTData) (k : Nat) : Finset Nat :=
  st.tlPTData.getPtsVal k

def getPtsValVK (st : PersistentVersionedPTData) (vk : Nat) : Finset Nat :=
  st.atPTData.getPtsVal vk

def getRevPtsVal (st : PersistentVersionedPTData) (data : Nat) : Finset Nat :=
  st.tlPTData.getRevPtsVal data

def getVersionedKeyRevPtsVal (st : PersistentVersionedPTData) (data : Nat) :
    Finset Nat :=
  st.atPTData.getRevPtsVal data

def addPts (st : PersistentVersionedPTData) (k element : Nat) :
    PersistentVersionedPTData × Bool :=
  let r := st.tlPTData.addPts k element
  ({ st with tlPTData := r.1 }, r.2)

def addPtsVK (st : PersistentVersionedPTData) (vk element : Nat) :
    PersistentVersionedPTData × Bool :=
  let r := st.atPTData.addPts vk element
  ({ st with atPTData := r.1 }, r.2)

def unionPts (st : PersistentVersionedPTData) (dstVar srcVar : Nat) :
    PersistentVersionedPTData × Bool :=
  let r := st.tlPTData.unionPts dstVar srcVar
  ({ st with tlPTData := r.1 }, r.2)

def unionPtsVK (st : PersistentVersionedPTData) (dstVar srcVar : Nat) :
    PersistentVersionedPTData × Bool :=
  let r := st.atPTData.unionPts dstVar srcVar
  ({ st with atPTData := r.1 }, r.2)

/-- Cross-space union `unionPts(dst : VersionedKey, src : Key)`:
`atPTData.unionPtsFromId(dstVar, tlPTData.ptsMap[srcVar])`. -/
def unionPtsVKFromK (st : PersistentVersionedPTData) (dstVar srcVar : Nat) :
    PersistentVersionedPTData × Bool :=
  let tl0 := { st.tlPTData with ptsMap := st.tlPTData.ptsMap.touch srcVar }
  let r := st.atPTData.unionPtsFromId dstVar (tl0.ptsMap.get srcVar)
  ({ tlPTData := tl0, atPTData := r.1 }, r.2)

/-- Cross-space union `unionPts(dst : Key, src : VersionedKey)`. -/
def unionPtsKFromVK (st : PersistentVersionedPTData) (dstVar srcVar : Nat) :
    PersistentVersionedPTData × Bool :=
  let at0 := { st.atPTData with ptsMap := st.atPTData.ptsMap.touch srcVar }
  let r := st.tlPTData.unionPtsFromId dstVar (at0.ptsMap.get srcVar)
  ({ tlPTData := r.1, atPTData := at0 }, r.2)

def unionPtsSet (st : PersistentVersionedPTData) (dstVar : Nat)
    (srcData : Finset Nat) : PersistentVersionedPTData × Bool :=
  let r := st.tlPTData.unionPtsSet dstVar srcData
  ({ st with tlPTData := r.1 }, r.2)

def unionPtsSetVK (st : PersistentVersionedPTData) (dstVar : Nat)
    (srcData : Finset Nat) : PersistentVersionedPTData × Bool :=
  let r := st.atPTData.unionPtsSet dstVar srcData
  ({ st with atPTData := r.1 }, r.2)

/-- `PersistentVersionedPTData::topN` enumerates both spaces' pts maps with
the same counting code. -/
def topN (st : PersistentVersionedPTData) (n : Nat) : Nat × Nat :=
  topNPair n [st.tlPTData.ptsMap, st.atPTData.ptsMap]

end PersistentVersionedPTData

/-!  ## Operation sequences on the basic store (for the reverse-consistency
invariant) -/

/-- A mutating basic-store operation (the ones named by the reverse
consistency property). -/
inductive BasicOp where
  | add (k d : Nat)
  | unionKey (dst src : Nat)
  | unionSet (dst : Nat) (s : Finset Nat)
  | clearOne (k d : Nat)
  | clearFull (k : Nat)

def applyBasicOp (st : PersistentPTData) (op : BasicOp) : PersistentPTData :=
  match op with
  | .add k d => (st.addPts k d).1
  | .unionKey dst src => (st.unionPts dst src).1
  | .unionSet dst s => (st.unionPtsSet dst s).1
  | .clearOne k d => st.clearPts k d
  | .clearFull k => st.clearFullPts k

def applyBasicOps (st : PersistentPTData) (ops : List BasicOp) : PersistentPTData :=
  ops.foldl applyBasicOp st

/-- Reverse consistency: an object is in a key's points-to set exactly when
the key is in the object's reverse set. -/
def RevConsistent (st : PersistentPTData) : Prop :=
  ∀ k d : Nat, d ∈ st.getPtsVal k ↔ k ∈ st.getRevPtsVal d

/-!  ## Characterisation of the shared union algorithm -/

namespace PersistentPTData

theorem unionPtsFromId_rev_eq (st : PersistentPTData) (k : Nat) (i : PointsToID) :
    (st.unionPtsFromId k i).1.rev = st.rev := by
  unfold unionPtsFromId
  simp only [IDMap.get_touch]
  by_cases hc : PersistentPointsToCache.unionPts (st.ptsMap.get k) i = st.ptsMap.get k
  · simp [hc]
  · by_cases hr : st.rev <;> simp [hc, hr]

theorem unionPtsFromId_getPtsVal (st : PersistentPTData) (k : Nat) (i : PointsToID)
    (x : Nat) :
    (st.unionPtsFromId k i).1.getPtsVal x =
      if x = k then st.getPtsVal k ∪ i else st.getPtsVal x := by
  unfold unionPtsFromId getPtsVal
  simp only [PersistentPointsToCache.getActualPts, PersistentPointsToCache.unionPts,
    IDMap.get_touch]
  by_cases hc : st.ptsMap.get k ∪ i = st.ptsMap.get k
  · simp only [ne_eq, hc, not_true_eq_false, if_false, IDMap.get_touch]
    by_cases hx : x = k
    · subst hx
      simp [hc]
    · simp [hx]
  · simp only [ne_eq, hc, not_false_eq_true, if_true]
    by_cases hr : st.rev
    · simp only [hr, if_true, IDMap.get_set, IDMap.get_touch]
    · simp only [hr, Bool.false_eq_true, if_false, IDMap.get_set, IDMap.get_touch]

theorem unionPtsFromId_flag (st : PersistentPTData) (k : Nat) (i : PointsToID) :
    (st.unionPtsFromId k i).2 =
      decide ((st.unionPtsFromId k i).1.getPtsVal k ≠ st.getPtsVal k) := by
  rw [unionPtsFromId_getPtsVal st k i k, if_pos rfl]
  unfold unionPtsFromId
  simp only [IDMap.get_touch]
  by_cases hc : PersistentPointsToCache.unionPts (st.ptsMap.get k) i = st.ptsMap.get k
  · have hcv : st.getPtsVal k ∪ i = st.getPtsVal k := hc
    simp [hc, hcv]
  · have hcv : ¬ st.getPtsVal k ∪ i = st.getPtsVal k := hc
    by_cases hr : st.rev <;> simp [hc, hcv, hr]

theorem unionPtsFromId_revPtsMap (st : PersistentPTData) (k : Nat) (i : PointsToID)
    (d : Nat) :
    (st.unionPtsFromId k i).1.revPtsMap d =
      if st.rev = true ∧ st.getPtsVal k ∪ i ≠ st.getPtsVal k ∧ d ∈ i then
        insert k (st.revPtsMap d)
      else st.revPtsMap d := by
  unfold unionPtsFromId
  simp only [IDMap.get_touch]
  by_cases hc : PersistentPointsToCache.unionPts (st.ptsMap.get k) i = st.ptsMap.get k
  · have hcv : st.getPtsVal k ∪ i = st.getPtsVal k := hc
    simp [hc, hcv]
  · have hcv : ¬ st.getPtsVal k ∪ i = st.getPtsVal k := hc
    by_cases hr : st.rev
    · by_cases hd : d ∈ i
      · have hd2 : d ∈ PersistentPointsToCache.getActualPts i := hd
        simp [hc, hcv, hr, hd, hd2]
      · have hd2 : d ∉ PersistentPointsToCache.getActualPts i := hd
        simp [hc, hcv, hr, hd, hd2]
    · simp [hc, hr]

end PersistentPTData

namespace PersistentPTData

theorem addPts_getPtsVal (st : PersistentPTData) (k d x : Nat) :
    (st.addPts k d).1.getPtsVal x =
      if x = k then st.getPtsVal k ∪ {d} else st.getPtsVal x := by
  unfold addPts PersistentPointsToCache.emplacePts
  exact unionPtsFromId_getPtsVal st k {d} x

theorem addPts_flag (st : PersistentPTData) (k d : Nat) :
    (st.addPts k d).2 = decide ((st.addPts k d).1.getPtsVal k ≠ st.getPtsVal k) := by
  unfold addPts PersistentPointsToCache.emplacePts
  exact unionPtsFromId_flag st k {d}

theorem touchSrc_getPtsVal (st : PersistentPTData) (srcKey x : Nat) :
    ({ st with ptsMap := st.ptsMap.touch srcKey } : PersistentPTData).getPtsVal x
      = st.getPtsVal x := by
  unfold getPtsVal
  simp [IDMap.get_touch]

theorem unionPts_getPtsVal (st : PersistentPTData) (dstKey srcKey x : Nat) :
    (st.unionPts dstKey srcKey).1.getPtsVal x =
      if x = dstKey then st.getPtsVal dstKey ∪ st.getPtsVal srcKey
      else st.getPtsVal x := by
  unfold unionPts
  rw [unionPtsFromId_getPtsVal]
  rw [touchSrc_getPtsVal, touchSrc_getPtsVal]
  have : IDMap.get (st.ptsMap.touch srcKey) srcKey = st.getPtsVal srcKey := by
    rw [IDMap.get_touch]
    rfl
  rw [this]

theorem unionPts_flag (st : PersistentPTData) (dstKey srcKey : Nat) :
    (st.unionPts dstKey srcKey).2 =
      decide ((st.unionPts dstKey srcKey).1.getPtsVal dstKey ≠ st.getPtsVal dstKey) := by
  unfold unionPts
  rw [unionPtsFromId_flag, touchSrc_getPtsVal]

theorem unionPtsSet_getPtsVal (st : PersistentPTData) (dstKey : Nat)
    (srcData : Finset Nat) (x : Nat) :
    (st.unionPtsSet dstKey srcData).1.getPtsVal x =
      if x = dstKey then st.getPtsVal dstKey ∪ srcData else st.getPtsVal x := by
  unfold unionPtsSet PersistentPointsToCache.emplacePts
  exact unionPtsFromId_getPtsVal st dstKey srcData x

theorem unionPtsSet_flag (st : PersistentPTData) (dstKey : Nat) (srcData : Finset Nat) :
    (st.unionPtsSet dstKey srcData).2 =
      decide ((st.unionPtsSet dstKey srcData).1.getPtsVal dstKey ≠ st.getPtsVal dstKey) := by
  unfold unionPtsSet PersistentPointsToCache.emplacePts
  exact unionPtsFromId_flag st dstKey srcData

end PersistentPTData

/-!  ## Characterisation of the data-flow transfer operations -/

namespace PersistentDFPTData

theorem updateDFInFromIn_dfInVal (st : PersistentDFPTData)
    (sL sK dL dK x y : Nat) :
    (st.updateDFInFromIn sL sK dL dK).1.dfInVal x y =
      if x = dL ∧ y = dK then st.dfInVal dL dK ∪ st.dfInVal sL sK
      else st.dfInVal x y := by
  unfold updateDFInFromIn dfInVal
  simp only [PersistentPointsToCache.getActualPts, PersistentPointsToCache.unionPts,
    DFMap.get2_set2, DFMap.get2_touch2]

theorem updateDFInFromIn_dfOutVal (st : PersistentDFPTData) (sL sK dL dK x y : Nat) :
    (st.updateDFInFromIn sL sK dL dK).1.dfOutVal x y = st.dfOutVal x y := rfl

theorem updateDFInFromIn_pers (st : PersistentDFPTData) (sL sK dL dK : Nat) :
    (st.updateDFInFromIn sL sK dL dK).1.persPTData = st.persPTData := rfl

theorem updateDFInFromIn_flag (st : PersistentDFPTData) (sL sK dL dK : Nat) :
    (st.updateDFInFromIn sL sK dL dK).2 =
      decide ((st.updateDFInFromIn sL sK dL dK).1.dfInVal dL dK ≠ st.dfInVal dL dK) := by
  rw [updateDFInFromIn_dfInVal]
  simp only [and_self, if_pos]
  unfold updateDFInFromIn dfInVal
  simp only [PersistentPointsToCache.getActualPts, PersistentPointsToCache.unionPts,
    DFMap.get2_touch2]

theorem updateDFInFromOut_dfInVal (st : PersistentDFPTData) (sL sK dL dK x y : Nat) :
    (st.updateDFInFromOut sL sK dL dK).1.dfInVal x y =
      if x = dL ∧ y = dK then st.dfInVal dL dK ∪ st.dfOutVal sL sK
      else st.dfInVal x y := by
  unfold updateDFInFromOut dfInVal dfOutVal
  simp only [PersistentPointsToCache.getActualPts, PersistentPointsToCache.unionPts,
    DFMap.get2_set2, DFMap.get2_touch2]

theorem updateDFInFromOut_dfOutVal (st : PersistentDFPTData) (sL sK dL dK x y : Nat) :
    (st.updateDFInFromOut sL sK dL dK).1.dfOutVal x y = st.dfOutVal x y := by
  unfold updateDFInFromOut dfOutVal
  simp only [DFMap.get2_touch2]

theorem updateDFInFromOut_pers (st : PersistentDFPTData) (sL sK dL dK : Nat) :
    (st.updateDFInFromOut sL sK dL dK).1.persPTData = st.persPTData := rfl

theorem updateDFInFromOut_flag (st : PersistentDFPTData) (sL sK dL dK : Nat) :
    (st.updateDFInFromOut sL sK dL dK).2 =
      decide ((st.updateDFInFromOut sL sK dL dK).1.dfInVal dL dK ≠ st.dfInVal dL dK) := by
  rw [updateDFInFromOut_dfInVal]
  simp only [and_self, if_pos]
  unfold updateDFInFromOut dfInVal dfOutVal
  simp only [PersistentPointsToCache.getActualPts, PersistentPointsToCache.unionPts,
    DFMap.get2_touch2]

theorem updateDFOutFromIn_dfOutVal (st : PersistentDFPTData) (sL sK dL dK x y : Nat) :
    (st.updateDFOutFromIn sL sK dL dK).1.dfOutVal x y =
      if x = dL ∧ y = dK then st.dfOutVal dL dK ∪ st.dfInVal sL sK
      else st.dfOutVal x y := by
  unfold updateDFOutFromIn dfInVal dfOutVal
  simp only [PersistentPointsToCache.getActualPts, PersistentPointsToCache.unionPts,
    DFMap.get2_set2, DFMap.get2_touch2]

theorem updateDFOutFromIn_dfInVal (st : PersistentDFPTData) (sL sK dL dK x y : Nat) :
    (st.updateDFOutFromIn sL sK dL dK).1.dfInVal x y = st.dfInVal x y := by
  unfold updateDFOutFromIn dfInVal
  simp only [DFMap.get2_touch2]

theorem updateDFOutFromIn_pers (st : PersistentDFPTData) (sL sK dL dK : Nat) :
    (st.updateDFOutFromIn sL sK dL dK).1.persPTData = st.persPTData := rfl

theorem updateDFOutFromIn_flag (st : PersistentDFPTData) (sL sK dL dK : Nat) :
    (st.updateDFOutFromIn sL sK dL dK).2 =
      decide ((st.updateDFOutFromIn sL sK dL dK).1.dfOutVal dL dK ≠ st.dfOutVal dL dK) := by
  rw [updateDFOutFromIn_dfOutVal]
  simp only [and_self, if_pos]
  unfold updateDFOutFromIn dfInVal dfOutVal
  simp only [PersistentPointsToCache.getActualPts, PersistentPointsToCache.unionPts,
    DFMap.get2_touch2]

theorem updateTLVPts_getPtsVal (st : PersistentDFPTData) (sL sK dK x : Nat) :
    (st.updateTLVPts sL sK dK).1.getPtsVal x =
      if x = dK then st.getPtsVal dK ∪ st.dfInVal sL sK else st.getPtsVal x := by
  unfold updateTLVPts getPtsVal PersistentPTData.getPtsVal dfInVal
  simp only [PersistentPointsToCache.getActualPts, PersistentPointsToCache.unionPts,
    IDMap.get_set, IDMap.get_touch, DFMap.get2_touch2]

theorem updateTLVPts_dfInVal (st : PersistentDFPTData) (sL sK dK x y : Nat) :
    (st.updateTLVPts sL sK dK).1.dfInVal x y = st.dfInVal x y := by
  unfold updateTLVPts dfInVal
  simp only [DFMap.get2_touch2]

theorem updateTLVPts_flag (st : PersistentDFPTData) (sL sK dK : Nat) :
    (st.updateTLVPts sL sK dK).2 =
      decide ((st.updateTLVPts sL sK dK).1.getPtsVal dK ≠ st.getPtsVal dK) := by
  rw [updateTLVPts_getPtsVal]
  simp only [if_pos]
  unfold updateTLVPts getPtsVal PersistentPTData.getPtsVal dfInVal
  simp only [PersistentPointsToCache.getActualPts, PersistentPointsToCache.unionPts,
    IDMap.get_touch, DFMap.get2_touch2]

theorem updateATVPts_dfOutVal (st : PersistentDFPTData) (sK dL dK x y : Nat) :
    (st.updateATVPts sK dL dK).1.dfOutVal x y =
      if x = dL ∧ y = dK then st.dfOutVal dL dK ∪ st.getPtsVal sK
      else st.dfOutVal x y := by
  unfold updateATVPts dfOutVal getPtsVal PersistentPTData.getPtsVal
  simp only [PersistentPointsToCache.getActualPts, PersistentPointsToCache.unionPts,
    DFMap.get2_set2, DFMap.get2_touch2, IDMap.get_touch]

theorem updateATVPts_flag (st : PersistentDFPTData) (sK dL dK : Nat) :
    (st.updateATVPts sK dL dK).2 =
      decide ((st.updateATVPts sK dL dK).1.dfOutVal dL dK ≠ st.dfOutVal dL dK) := by
  rw [updateATVPts_dfOutVal]
  simp only [and_self, if_pos]
  unfold updateATVPts dfOutVal getPtsVal PersistentPTData.getPtsVal
  simp only [PersistentPointsToCache.getActualPts, PersistentPointsToCache.unionPts,
    DFMap.get2_touch2, IDMap.get_touch]

end PersistentDFPTData

namespace PersistentDFPTData

theorem updateDFInFromIn_flag2 (st : PersistentDFPTData) (sL sK dL dK : Nat) :
    (st.updateDFInFromIn sL sK dL dK).2 =
      decide (st.dfInVal dL dK ∪ st.dfInVal sL sK ≠ st.dfInVal dL dK) := by
  rw [updateDFInFromIn_flag, updateDFInFromIn_dfInVal]
  simp only [and_self, if_pos]

theorem updateDFInFromOut_flag2 (st : PersistentDFPTData) (sL sK dL dK : Nat) :
    (st.updateDFInFromOut sL sK dL dK).2 =
      decide (st.dfInVal dL dK ∪ st.dfOutVal sL sK ≠ st.dfInVal dL dK) := by
  rw [updateDFInFromOut_flag, updateDFInFromOut_dfInVal]
  simp only [and_self, if_pos]

theorem updateDFOutFromIn_flag2 (st : PersistentDFPTData) (sL sK dL dK : Nat) :
    (st.updateDFOutFromIn sL sK dL dK).2 =
      decide (st.dfOutVal dL dK ∪ st.dfInVal sL sK ≠ st.dfOutVal dL dK) := by
  rw [updateDFOutFromIn_flag, updateDFOutFromIn_dfOutVal]
  simp only [and_self, if_pos]

theorem updateTLVPts_flag2 (st : PersistentDFPTData) (sL sK dK : Nat) :
    (st.updateTLVPts sL sK dK).2 =
      decide (st.getPtsVal dK ∪ st.dfInVal sL sK ≠ st.getPtsVal dK) := by
  rw [updateTLVPts_flag, updateTLVPts_getPtsVal]
  simp only [if_pos]

theorem updateATVPts_flag2 (st : PersistentDFPTData) (sK dL dK : Nat) :
    (st.updateATVPts sK dL dK).2 =
      decide (st.dfOutVal dL dK ∪ st.getPtsVal sK ≠ st.dfOutVal dL dK) := by
  rw [updateATVPts_flag, updateATVPts_dfOutVal]
  simp only [and_self, if_pos]

end PersistentDFPTData

/-!  ## Characterisation of the incremental transfer operations -/

namespace PersistentIncDFPTData

theorem removeVar_df (st : PersistentIncDFPTData) (loc var : Nat) :
    (st.removeVarFromDFInUpdatedSet loc var).df = st.df := rfl

theorem updateDFInFromIn_dfInValI (st : PersistentIncDFPTData) (sL sK dL dK x y : Nat) :
    (st.updateDFInFromIn sL sK dL dK).1.dfInValI x y =
      if st.varHasNewDFInPts sL sK = true ∧ x = dL ∧ y = dK then
        st.dfInValI dL dK ∪ st.dfInValI sL sK
      else st.dfInValI x y := by
  unfold updateDFInFromIn dfInValI
  by_cases hg : st.varHasNewDFInPts sL sK
  · cases hr2 : (st.df.updateDFInFromIn sL sK dL dK).2 <;>
      simp [hg, hr2, setVarDFInSetUpdated,
        PersistentDFPTData.updateDFInFromIn_dfInVal]
  · simp [hg]

theorem updateDFInFromIn_flag_eq (st : PersistentIncDFPTData) (sL sK dL dK : Nat) :
    (st.updateDFInFromIn sL sK dL dK).2 =
      (st.varHasNewDFInPts sL sK && (st.df.updateDFInFromIn sL sK dL dK).2) := by
  unfold updateDFInFromIn
  by_cases hg : st.varHasNewDFInPts sL sK
  · cases hr2 : (st.df.updateDFInFromIn sL sK dL dK).2 <;> simp [hg, hr2]
  · simp [hg]

theorem updateDFInFromIn_flagI (st : PersistentIncDFPTData) (sL sK dL dK : Nat) :
    (st.updateDFInFromIn sL sK dL dK).2 =
      decide ((st.updateDFInFromIn sL sK dL dK).1.dfInValI dL dK ≠ st.dfInValI dL dK) := by
  rw [updateDFInFromIn_dfInValI, updateDFInFromIn_flag_eq]
  by_cases hg : st.varHasNewDFInPts sL sK
  · rw [PersistentDFPTData.updateDFInFromIn_flag2]
    simp only [hg, Bool.true_and, true_and, and_self, if_pos]
    rfl
  · simp [hg]

theorem updateDFInFromIn_inUpdated (st : PersistentIncDFPTData) (sL sK dL dK x : Nat) :
    (st.updateDFInFromIn sL sK dL dK).1.inUpdatedVarMap x =
      if (st.updateDFInFromIn sL sK dL dK).2 = true ∧ x = dL then
        insert dK (st.inUpdatedVarMap x)
      else st.inUpdatedVarMap x := by
  unfold updateDFInFromIn
  by_cases hg : st.varHasNewDFInPts sL sK
  · cases hr2 : (st.df.updateDFInFromIn sL sK dL dK).2
    · simp [hg, hr2]
    · by_cases hx : x = dL <;> simp [hg, hr2, hx, setVarDFInSetUpdated]
  · simp [hg]

theorem updateDFInFromIn_outUpdated (st : PersistentIncDFPTData) (sL sK dL dK : Nat) :
    (st.updateDFInFromIn sL sK dL dK).1.outUpdatedVarMap = st.outUpdatedVarMap := by
  unfold updateDFInFromIn
  by_cases hg : st.varHasNewDFInPts sL sK
  · cases hr2 : (st.df.updateDFInFromIn sL sK dL dK).2 <;>
      simp [hg, hr2, setVarDFInSetUpdated]
  · simp [hg]

theorem updateDFInFromOut_dfInValI (st : PersistentIncDFPTData) (sL sK dL dK x y : Nat) :
    (st.updateDFInFromOut sL sK dL dK).1.dfInValI x y =
      if st.varHasNewDFOutPts sL sK = true ∧ x = dL ∧ y = dK then
        st.dfInValI dL dK ∪ st.dfOutValI sL sK
      else st.dfInValI x y := by
  unfold updateDFInFromOut dfInValI dfOutValI
  by_cases hg : st.varHasNewDFOutPts sL sK
  · cases hr2 : (st.df.updateDFInFromOut sL sK dL dK).2 <;>
      simp [hg, hr2, setVarDFInSetUpdated,
        PersistentDFPTData.updateDFInFromOut_dfInVal]
  · simp [hg]

theorem updateDFInFromOut_flag_eq (st : PersistentIncDFPTData) (sL sK dL dK : Nat) :
    (st.updateDFInFromOut sL sK dL dK).2 =
      (st.varHasNewDFOutPts sL sK && (st.df.updateDFInFromOut sL sK dL dK).2) := by
  unfold updateDFInFromOut
  by_cases hg : st.varHasNewDFOutPts sL sK
  · cases hr2 : (st.df.updateDFInFromOut sL sK dL dK).2 <;> simp [hg, hr2]
  · simp [hg]

theorem updateDFInFromOut_flagI (st : PersistentIncDFPTData) (sL sK dL dK : Nat) :
    (st.updateDFInFromOut sL sK dL dK).2 =
      decide ((st.updateDFInFromOut sL sK dL dK).1.dfInValI dL dK ≠ st.dfInValI dL dK) := by
  rw [updateDFInFromOut_dfInValI, updateDFInFromOut_flag_eq]
  by_cases hg : st.varHasNewDFOutPts sL sK
  · rw [PersistentDFPTData.updateDFInFromOut_flag2]
    simp only [hg, Bool.true_and, true_and, and_self, if_pos]
    rfl
  · simp [hg]

theorem updateDFOutFromIn_dfOutValI (st : PersistentIncDFPTData) (sL sK dL dK x y : Nat) :
    (st.updateDFOutFromIn sL sK dL dK).1.dfOutValI x y =
      if st.varHasNewDFInPts sL sK = true ∧ x = dL ∧ y = dK then
        st.dfOutValI dL dK ∪ st.dfInValI sL sK
      else st.dfOutValI x y := by
  unfold updateDFOutFromIn dfOutValI dfInValI
  by_cases hg : st.varHasNewDFInPts sL sK
  · cases hr2 : (st.df.updateDFOutFromIn sL sK dL dK).2 <;>
      simp [hg, hr2, setVarDFOutSetUpdated, removeVarFromDFInUpdatedSet,
        PersistentDFPTData.updateDFOutFromIn_dfOutVal]
  · simp [hg]

theorem updateDFOutFromIn_dfInValI (st : PersistentIncDFPTData) (sL sK dL dK x y : Nat) :
    (st.updateDFOutFromIn sL sK dL dK).1.dfInValI x y = st.dfInValI x y := by
  unfold updateDFOutFromIn dfInValI
  by_cases hg : st.varHasNewDFInPts sL sK
  · cases hr2 : (st.df.updateDFOutFromIn sL sK dL dK).2 <;>
      simp [hg, hr2, setVarDFOutSetUpdated, removeVarFromDFInUpdatedSet,
        PersistentDFPTData.updateDFOutFromIn_dfInVal]
  · simp [hg]

theorem updateDFOutFromIn_flag_eq (st : PersistentIncDFPTData) (sL sK dL dK : Nat) :
    (st.updateDFOutFromIn sL sK dL dK).2 =
      (st.varHasNewDFInPts sL sK && (st.df.updateDFOutFromIn sL sK dL dK).2) := by
  unfold updateDFOutFromIn
  by_cases hg : st.varHasNewDFInPts sL sK
  · cases hr2 : (st.df.updateDFOutFromIn sL sK dL dK).2 <;>
      simp [hg, hr2, removeVarFromDFInUpdatedSet]
  · simp [hg]

theorem updateDFOutFromIn_flagI (st : PersistentIncDFPTData) (sL sK dL dK : Nat) :
    (st.updateDFOutFromIn sL sK dL dK).2 =
      decide ((st.updateDFOutFromIn sL sK dL dK).1.dfOutValI dL dK ≠ st.dfOutValI dL dK) := by
  rw [updateDFOutFromIn_dfOutValI, updateDFOutFromIn_flag_eq]
  by_cases hg : st.varHasNewDFInPts sL sK
  · rw [PersistentDFPTData.updateDFOutFromIn_flag2]
    simp only [hg, Bool.true_and, true_and, and_self, if_pos]
    rfl
  · simp [hg]

theorem updateDFOutFromIn_inUpdated (st : PersistentIncDFPTData) (sL sK dL dK x : Nat) :
    (st.updateDFOutFromIn sL sK dL dK).1.inUpdatedVarMap x =
      if st.varHasNewDFInPts sL sK = true ∧ x = sL then
        (st.inUpdatedVarMap x).erase sK
      else st.inUpdatedVarMap x := by
  unfold updateDFOutFromIn
  by_cases hg : st.varHasNewDFInPts sL sK
  · cases hr2 : (st.df.updateDFOutFromIn sL sK dL dK).2 <;>
      by_cases hx : x = sL <;>
      simp [hg, hr2, hx, setVarDFOutSetUpdated, removeVarFromDFInUpdatedSet]
  · simp [hg]

theorem updateDFOutFromIn_outUpdated (st : PersistentIncDFPTData) (sL sK dL dK x : Nat) :
    (st.updateDFOutFromIn sL sK dL dK).1.outUpdatedVarMap x =
      if (st.updateDFOutFromIn sL sK dL dK).2 = true ∧ x = dL then
        insert dK (st.outUpdatedVarMap x)
      else st.outUpdatedVarMap x := by
  rw [updateDFOutFromIn_flag_eq]
  unfold updateDFOutFromIn
  by_cases hg : st.varHasNewDFInPts sL sK
  · cases hr2 : (st.df.updateDFOutFromIn sL sK dL dK).2
    · simp [hg, hr2, removeVarFromDFInUpdatedSet]
    · by_cases hx : x = dL <;>
        simp [hg, hr2, hx, setVarDFOutSetUpdated, removeVarFromDFInUpdatedSet]
  · simp [hg]

theorem updateDFOutFromIn_persI (st : PersistentIncDFPTData) (sL sK dL dK : Nat) :
    (st.updateDFOutFromIn sL sK dL dK).1.df.persPTData = st.df.persPTData := by
  unfold updateDFOutFromIn
  by_cases hg : st.varHasNewDFInPts sL sK
  · cases hr2 : (st.df.updateDFOutFromIn sL sK dL dK).2 <;>
      simp [hg, hr2, setVarDFOutSetUpdated, removeVarFromDFInUpdatedSet,
        PersistentDFPTData.updateDFOutFromIn_pers]
  · simp [hg]

end PersistentIncDFPTData

namespace PersistentIncDFPTData

theorem updateAllDFInFromIn_dfInValI (st : PersistentIncDFPTData) (sL sK dL dK x y : Nat) :
    (st.updateAllDFInFromIn sL sK dL dK).1.dfInValI x y =
      if x = dL ∧ y = dK then st.dfInValI dL dK ∪ st.dfInValI sL sK
      else st.dfInValI x y := by
  unfold updateAllDFInFromIn dfInValI
  cases hr2 : (st.df.updateDFInFromIn sL sK dL dK).2 <;>
    simp [hr2, setVarDFInSetUpdated, PersistentDFPTData.updateDFInFromIn_dfInVal]

theorem updateAllDFInFromIn_flag_eq (st : PersistentIncDFPTData) (sL sK dL dK : Nat) :
    (st.updateAllDFInFromIn sL sK dL dK).2 = (st.df.updateDFInFromIn sL sK dL dK).2 := by
  unfold updateAllDFInFromIn
  cases hr2 : (st.df.updateDFInFromIn sL sK dL dK).2 <;> simp [hr2]

theorem updateAllDFInFromIn_flagI (st : PersistentIncDFPTData) (sL sK dL dK : Nat) :
    (st.updateAllDFInFromIn sL sK dL dK).2 =
      decide ((st.updateAllDFInFromIn sL sK dL dK).1.dfInValI dL dK ≠ st.dfInValI dL dK) := by
  rw [updateAllDFInFromIn_dfInValI, updateAllDFInFromIn_flag_eq,
    PersistentDFPTData.updateDFInFromIn_flag2]
  simp only [and_self, if_pos]
  rfl

theorem updateAllDFInFromOut_dfInValI (st : PersistentIncDFPTData) (sL sK dL dK x y : Nat) :
    (st.updateAllDFInFromOut sL sK dL dK).1.dfInValI x y =
      if x = dL ∧ y = dK then st.dfInValI dL dK ∪ st.dfOutValI sL sK
      else st.dfInValI x y := by
  unfold updateAllDFInFromOut dfInValI dfOutValI
  cases hr2 : (st.df.updateDFInFromOut sL sK dL dK).2 <;>
    simp [hr2, setVarDFInSetUpdated, PersistentDFPTData.updateDFInFromOut_dfInVal]

theorem updateAllDFInFromOut_flag_eq (st : PersistentIncDFPTData) (sL sK dL dK : Nat) :
    (st.updateAllDFInFromOut sL sK dL dK).2 = (st.df.updateDFInFromOut sL sK dL dK).2 := by
  unfold updateAllDFInFromOut
  cases hr2 : (st.df.updateDFInFromOut sL sK dL dK).2 <;> simp [hr2]

theorem updateAllDFInFromOut_flagI (st : PersistentIncDFPTData) (sL sK dL dK : Nat) :
    (st.updateAllDFInFromOut sL sK dL dK).2 =
      decide ((st.updateAllDFInFromOut sL sK dL dK).1.dfInValI dL dK ≠ st.dfInValI dL dK) := by
  rw [updateAllDFInFromOut_dfInValI, updateAllDFInFromOut_flag_eq,
    PersistentDFPTData.updateDFInFromOut_flag2]
  simp only [and_self, if_pos]
  rfl

def getPtsValI (st : PersistentIncDFPTData) (var : Nat) : Finset Nat :=
  st.df.getPtsVal var

theorem updateTLVPts_getPtsValI (st : PersistentIncDFPTData) (sL sK dK x : Nat) :
    (st.updateTLVPts sL sK dK).1.getPtsValI x =
      if st.varHasNewDFInPts sL sK = true ∧ x = dK then
        st.getPtsValI dK ∪ st.dfInValI sL sK
      else st.getPtsValI x := by
  unfold updateTLVPts getPtsValI dfInValI
  by_cases hg : st.varHasNewDFInPts sL sK
  · simp [hg, removeVarFromDFInUpdatedSet, PersistentDFPTData.updateTLVPts_getPtsVal]
  · simp [hg]

theorem updateTLVPts_flag_eq (st : PersistentIncDFPTData) (sL sK dK : Nat) :
    (st.updateTLVPts sL sK dK).2 =
      (st.varHasNewDFInPts sL sK && (st.df.updateTLVPts sL sK dK).2) := by
  unfold updateTLVPts
  by_cases hg : st.varHasNewDFInPts sL sK
  · simp [hg, removeVarFromDFInUpdatedSet]
  · simp [hg]

theorem updateTLVPts_flagI (st : PersistentIncDFPTData) (sL sK dK : Nat) :
    (st.updateTLVPts sL sK dK).2 =
      decide ((st.updateTLVPts sL sK dK).1.getPtsValI dK ≠ st.getPtsValI dK) := by
  rw [updateTLVPts_getPtsValI, updateTLVPts_flag_eq]
  by_cases hg : st.varHasNewDFInPts sL sK
  · rw [PersistentDFPTData.updateTLVPts_flag2]
    simp only [hg, Bool.true_and, true_and, and_self, if_pos]
    rfl
  · simp [hg]

theorem updateATVPts_dfOutValI (st : PersistentIncDFPTData) (sK dL dK x y : Nat) :
    (st.updateATVPts sK dL dK).1.dfOutValI x y =
      if x = dL ∧ y = dK then st.dfOutValI dL dK ∪ st.getPtsValI sK
      else st.dfOutValI x y := by
  unfold updateATVPts dfOutValI getPtsValI
  cases hr2 : (st.df.updateATVPts sK dL dK).2 <;>
    simp [hr2, setVarDFOutSetUpdated, PersistentDFPTData.updateATVPts_dfOutVal]

theorem updateATVPts_flag_eq (st : PersistentIncDFPTData) (sK dL dK : Nat) :
    (st.updateATVPts sK dL dK).2 = (st.df.updateATVPts sK dL dK).2 := by
  unfold updateATVPts
  cases hr2 : (st.df.updateATVPts sK dL dK).2 <;> simp [hr2]

theorem updateATVPts_flagI (st : PersistentIncDFPTData) (sK dL dK : Nat) :
    (st.updateATVPts sK dL dK).2 =
      decide ((st.updateATVPts sK dL dK).1.dfOutValI dL dK ≠ st.dfOutValI dL dK) := by
  rw [updateATVPts_dfOutValI, updateATVPts_flag_eq,
    PersistentDFPTData.updateATVPts_flag2]
  simp only [and_self, if_pos]
  rfl

end PersistentIncDFPTData

/-!  ## Characterisation of the clearing operations, and reverse consistency -/

namespace PersistentPTData

theorem clearPts_rev_eq (st : PersistentPTData) (var e : Nat) :
    (st.clearPts var e).rev = st.rev := by
  unfold clearPts
  dsimp only
  split
  · split <;> rfl
  · rfl

theorem clearPts_getPtsVal (st : PersistentPTData) (var e x : Nat) :
    (st.clearPts var e).getPtsVal x =
      if x = var then st.getPtsVal var \ {e} else st.getPtsVal x := by
  have hval : PersistentPointsToCache.complementPts (st.ptsMap.get var)
      (PersistentPointsToCache.emplacePts {e}) = st.ptsMap.get var \ {e} := rfl
  unfold clearPts
  dsimp only
  split
  next hc =>
    split
    all_goals
      unfold getPtsVal
      simp only [PersistentPointsToCache.getActualPts, IDMap.get_set, IDMap.get_touch, hval]
  next hc =>
    rw [not_ne_iff, IDMap.get_touch, hval] at hc
    unfold getPtsVal
    simp only [PersistentPointsToCache.getActualPts, IDMap.get_touch]
    by_cases hx : x = var
    · subst hx
      rw [if_pos rfl, ← hc]
    · rw [if_neg hx]

theorem clearPts_revPtsMap (st : PersistentPTData) (var e d : Nat) :
    (st.clearPts var e).revPtsMap d =
      if st.rev = true ∧ e ∈ st.getPtsVal var ∧ d = e then
        (st.revPtsMap d).erase var
      else st.revPtsMap d := by
  have hval : PersistentPointsToCache.complementPts (st.ptsMap.get var)
      (PersistentPointsToCache.emplacePts {e}) = st.ptsMap.get var \ {e} := rfl
  unfold clearPts
  dsimp only
  split
  next hc =>
    rw [IDMap.get_touch, hval] at hc
    have he : e ∈ st.getPtsVal var := by
      by_contra habs
      exact hc (Finset.sdiff_eq_self_iff_disjoint.mpr (by simpa using habs)).symm
    split
    next hrv =>
      by_cases hd : d = e
      · subst hd
        rw [if_pos ⟨hrv, he, rfl⟩]
        simp
      · rw [if_neg (by simp [hd])]
        simp [hd]
    next hrv =>
      rw [if_neg (by simp [Bool.not_eq_true] ; intro h1 ; exact absurd h1 hrv)]
  next hc =>
    rw [not_ne_iff, IDMap.get_touch, hval] at hc
    have he : e ∉ st.getPtsVal var := by
      intro habs
      have habs2 : e ∈ st.ptsMap.get var := habs
      rw [hc] at habs2
      simp at habs2
    rw [if_neg (by simp [he])]

theorem clearFullPts_rev_eq (st : PersistentPTData) (var : Nat) :
    (st.clearFullPts var).rev = st.rev := by
  unfold clearFullPts
  dsimp only
  split <;> rfl

theorem clearFullPts_getPtsVal (st : PersistentPTData) (var x : Nat) :
    (st.clearFullPts var).getPtsVal x =
      if x = var then ∅ else st.getPtsVal x := by
  unfold clearFullPts
  dsimp only
  split
  all_goals
    unfold getPtsVal
    simp only [PersistentPointsToCache.getActualPts,
      PersistentPointsToCache.emptyPointsToId, IDMap.get_set, IDMap.get_touch]

theorem clearFullPts_revPtsMap (st : PersistentPTData) (var d : Nat) :
    (st.clearFullPts var).revPtsMap d =
      if st.rev = true ∧ d ∈ st.getPtsVal var then (st.revPtsMap d).erase var
      else st.revPtsMap d := by
  have hmem : d ∈ PersistentPointsToCache.getActualPts ((st.ptsMap.touch var).get var)
      ↔ d ∈ st.getPtsVal var := by
    rw [IDMap.get_touch]
    exact Iff.rfl
  unfold clearFullPts
  dsimp only
  split
  next hrv =>
    by_cases hd : d ∈ st.getPtsVal var
    · rw [if_pos ⟨hrv, hd⟩]
      have hd2 : d ∈ PersistentPointsToCache.getActualPts ((st.ptsMap.touch var).get var) :=
        hmem.mpr hd
      simp [hd2]
    · rw [if_neg (by simp [hd])]
      have hd2 : d ∉ PersistentPointsToCache.getActualPts ((st.ptsMap.touch var).get var) := by
        rw [hmem]
        exact hd
      simp [hd2]
  next hrv =>
    rw [if_neg (by simp [Bool.not_eq_true] ; intro h1 ; exact absurd h1 hrv)]

theorem revConsistent_touch (st : PersistentPTData) (k : Nat)
    (h : RevConsistent st) :
    RevConsistent ({ st with ptsMap := st.ptsMap.touch k } : PersistentPTData) := by
  intro x d
  rw [touchSrc_getPtsVal]
  exact h x d

theorem mem_unionPtsFromId_getPtsVal (st : PersistentPTData) (k : Nat) (i : PointsToID)
    (x d : Nat) :
    d ∈ (st.unionPtsFromId k i).1.getPtsVal x ↔
      d ∈ st.getPtsVal x ∨ (x = k ∧ d ∈ i) := by
  rw [unionPtsFromId_getPtsVal]
  by_cases hxk : x = k
  · subst hxk
    simp [Finset.mem_union]
  · simp [hxk]

theorem mem_unionPtsFromId_revPtsMap (st : PersistentPTData) (k : Nat) (i : PointsToID)
    (x d : Nat) :
    x ∈ (st.unionPtsFromId k i).1.revPtsMap d ↔
      x ∈ st.revPtsMap d ∨
        (x = k ∧ st.rev = true ∧ ¬ st.getPtsVal k ∪ i = st.getPtsVal k ∧ d ∈ i) := by
  rw [unionPtsFromId_revPtsMap]
  by_cases h1 : st.rev = true <;> by_cases h2 : st.getPtsVal k ∪ i = st.getPtsVal k <;>
    by_cases h3 : d ∈ i <;>
      simp [h1, h2, h3, Finset.mem_insert] <;> tauto

theorem revConsistent_unionPtsFromId (st : PersistentPTData) (k : Nat) (i : PointsToID)
    (hr : st.rev = true) (h : RevConsistent st) :
    RevConsistent (st.unionPtsFromId k i).1 := by
  intro x d
  have hgoal : (st.unionPtsFromId k i).1.getRevPtsVal d
      = (st.unionPtsFromId k i).1.revPtsMap d := rfl
  rw [hgoal, mem_unionPtsFromId_getPtsVal, mem_unionPtsFromId_revPtsMap]
  by_cases hch : st.getPtsVal k ∪ i = st.getPtsVal k
  · have hsub : ∀ y, y ∈ i → y ∈ st.getPtsVal k := by
      intro y hy
      rw [← hch]
      exact Finset.mem_union_right _ hy
    constructor
    · rintro (hl | ⟨hxk, hdi⟩)
      · exact Or.inl ((h x d).mp hl)
      · subst hxk
        exact Or.inl ((h x d).mp (hsub d hdi))
    · rintro (hrr | ⟨hxk, hrev, habs, hdi⟩)
      · exact Or.inl ((h x d).mpr hrr)
      · exact absurd hch habs
  · constructor
    · rintro (hl | ⟨hxk, hdi⟩)
      · exact Or.inl ((h x d).mp hl)
      · exact Or.inr ⟨hxk, hr, hch, hdi⟩
    · rintro (hrr | ⟨hxk, hrev, hchh, hdi⟩)
      · exact Or.inl ((h x d).mpr hrr)
      · exact Or.inr ⟨hxk, hdi⟩

theorem mem_clearPts_getPtsVal (st : PersistentPTData) (var e x d : Nat) :
    d ∈ (st.clearPts var e).getPtsVal x ↔
      d ∈ st.getPtsVal x ∧ ¬(x = var ∧ d = e) := by
  rw [clearPts_getPtsVal]
  by_cases hx : x = var
  · subst hx
    simp [Finset.mem_sdiff]
  · simp [hx]

theorem mem_clearPts_revPtsMap (st : PersistentPTData) (var e x d : Nat) :
    x ∈ (st.clearPts var e).revPtsMap d ↔
      x ∈ st.revPtsMap d ∧
        ¬(st.rev = true ∧ e ∈ st.getPtsVal var ∧ d = e ∧ x = var) := by
  rw [clearPts_revPtsMap]
  by_cases h1 : st.rev = true <;> by_cases h2 : e ∈ st.getPtsVal var <;>
    by_cases h3 : d = e <;>
      simp [h1, h2, h3, Finset.mem_erase] <;> tauto

theorem revConsistent_clearPts (st : PersistentPTData) (var e : Nat)
    (hr : st.rev = true) (h : RevConsistent st) :
    RevConsistent (st.clearPts var e) := by
  intro x d
  have hgoal : (st.clearPts var e).getRevPtsVal d = (st.clearPts var e).revPtsMap d := rfl
  rw [hgoal, mem_clearPts_getPtsVal, mem_clearPts_revPtsMap]
  constructor
  · rintro ⟨hmem, hnot⟩
    refine ⟨(h x d).mp hmem, ?_⟩
    rintro ⟨hrev, hev, hde, hxv⟩
    exact hnot ⟨hxv, hde⟩
  · rintro ⟨hmem, hnot⟩
    refine ⟨(h x d).mpr hmem, ?_⟩
    rintro ⟨hxv, hde⟩
    subst hxv
    subst hde
    exact hnot ⟨hr, (h x d).mpr hmem, rfl, rfl⟩

theorem mem_clearFullPts_getPtsVal (st : PersistentPTData) (var x d : Nat) :
    d ∈ (st.clearFullPts var).getPtsVal x ↔ d ∈ st.getPtsVal x ∧ ¬ x = var := by
  rw [clearFullPts_getPtsVal]
  by_cases hx : x = var <;> simp [hx]

theorem mem_clearFullPts_revPtsMap (st : PersistentPTData) (var x d : Nat) :
    x ∈ (st.clearFullPts var).revPtsMap d ↔
      x ∈ st.revPtsMap d ∧ ¬(st.rev = true ∧ d ∈ st.getPtsVal var ∧ x = var) := by
  rw [clearFullPts_revPtsMap]
  by_cases h1 : st.rev = true <;> by_cases h2 : d ∈ st.getPtsVal var <;>
    simp [h1, h2, Finset.mem_erase] <;> tauto

theorem revConsistent_clearFullPts (st : PersistentPTData) (var : Nat)
    (hr : st.rev = true) (h : RevConsistent st) :
    RevConsistent (st.clearFullPts var) := by
  intro x d
  have hgoal : (st.clearFullPts var).getRevPtsVal d = (st.clearFullPts var).revPtsMap d := rfl
  rw [hgoal, mem_clearFullPts_getPtsVal, mem_clearFullPts_revPtsMap]
  constructor
  · rintro ⟨hmem, hnx⟩
    refine ⟨(h x d).mp hmem, ?_⟩
    rintro ⟨hrev, hdv, hxv⟩
    exact hnx hxv
  · rintro ⟨hmem, hnot⟩
    refine ⟨(h x d).mpr hmem, ?_⟩
    intro hxv
    subst hxv
    exact hnot ⟨hr, (h x d).mpr hmem, rfl⟩

end PersistentPTData

theorem applyBasicOp_rev (st : PersistentPTData) (op : BasicOp) :
    (applyBasicOp st op).rev = st.rev := by
  cases op with
  | add k d => exact PersistentPTData.unionPtsFromId_rev_eq st k _
  | unionKey dst src => exact PersistentPTData.unionPtsFromId_rev_eq _ dst _
  | unionSet dst s => exact PersistentPTData.unionPtsFromId_rev_eq st dst _
  | clearOne k d => exact PersistentPTData.clearPts_rev_eq st k d
  | clearFull k => exact PersistentPTData.clearFullPts_rev_eq st k

theorem revConsistent_applyBasicOp (st : PersistentPTData) (op : BasicOp)
    (hr : st.rev = true) (h : RevConsistent st) :
    RevConsistent (applyBasicOp st op) := by
  cases op with
  | add k d => exact PersistentPTData.revConsistent_unionPtsFromId st k _ hr h
  | unionKey dst src =>
    exact PersistentPTData.revConsistent_unionPtsFromId _ dst _ hr
      (PersistentPTData.revConsistent_touch st src h)
  | unionSet dst s => exact PersistentPTData.revConsistent_unionPtsFromId st dst _ hr h
  | clearOne k d => exact PersistentPTData.revConsistent_clearPts st k d hr h
  | clearFull k => exact PersistentPTData.revConsistent_clearFullPts st k hr h

theorem revConsistent_applyBasicOps (ops : List BasicOp) :
    ∀ st : PersistentPTData, st.rev = true → RevConsistent st →
      RevConsistent (applyBasicOps st ops) := by
  induction ops with
  | nil => exact fun st _ h => h
  | cons op t ih =>
    intro st hr h
    exact ih (applyBasicOp st op) ((applyBasicOp_rev st op).trans hr)
      (revConsistent_applyBasicOp st op hr h)

theorem revConsistent_init : RevConsistent (PersistentPTData.init true) := by
  intro k d
  unfold PersistentPTData.init PersistentPTData.getPtsVal PersistentPTData.getRevPtsVal
  simp [IDMap.empty, IDMap.get, PersistentPointsToCache.getActualPts,
    PersistentPointsToCache.emptyPointsToId]

/-!  ## The `updateAllDFOutFromIn` loops -/

theorem list_any_congr (l : List Nat) (f g : Nat → Bool)
    (h : ∀ x ∈ l, f x = g x) : l.any f = l.any g := by
  induction l with
  | nil => rfl
  | cons a t ih =>
    simp only [List.any_cons, h a (List.mem_cons_self a t)]
    rw [ih (fun x hx => h x (List.mem_cons_of_mem a hx))]

namespace PersistentDFPTData

theorem allOut_foldl (loc singleton : Nat) (strong : Bool) :
    ∀ ks : List Nat, ks.Nodup → ∀ (st0 : PersistentDFPTData) (b : Bool),
      (∀ x y, (ks.foldl (allOutStep loc singleton strong) (st0, b)).1.dfInVal x y
          = st0.dfInVal x y) ∧
      (∀ x y, (ks.foldl (allOutStep loc singleton strong) (st0, b)).1.dfOutVal x y
          = if x = loc ∧ y ∈ ks ∧ ¬(strong = true ∧ y = singleton) then
              st0.dfOutVal x y ∪ st0.dfInVal loc y
            else st0.dfOutVal x y) ∧
      (ks.foldl (allOutStep loc singleton strong) (st0, b)).2
          = (b || ks.any (fun k2 => decide (¬(strong = true ∧ k2 = singleton)) &&
              decide (st0.dfOutVal loc k2 ∪ st0.dfInVal loc k2 ≠ st0.dfOutVal loc k2))) := by
  intro ks
  induction ks with
  | nil =>
    intro _ st0 b
    refine ⟨fun x y => rfl, fun x y => ?_, by simp⟩
    simp
  | cons a t ih =>
    intro hnd st0 b
    have hand : a ∉ t := (List.nodup_cons.mp hnd).1
    have hndt : t.Nodup := (List.nodup_cons.mp hnd).2
    by_cases hskip : strong = true ∧ a = singleton
    · have hstep : allOutStep loc singleton strong (st0, b) a = (st0, b) := by
        unfold allOutStep
        rw [if_pos hskip]
      rw [List.foldl_cons, hstep]
      obtain ⟨ih1, ih2, ih3⟩ := ih hndt st0 b
      refine ⟨ih1, fun x y => ?_, ?_⟩
      · rw [ih2]
        apply if_congr _ rfl rfl
        constructor
        · rintro ⟨hx, hyt, hns⟩
          exact ⟨hx, List.mem_cons_of_mem a hyt, hns⟩
        · rintro ⟨hx, hyat, hns⟩
          rcases List.mem_cons.mp hyat with hya | hyt
          · subst hya
            exact absurd hskip hns
          · exact ⟨hx, hyt, hns⟩
      · rw [ih3, List.any_cons]
        have hfa : decide (¬(strong = true ∧ a = singleton)) = false := by simp [hskip]
        rw [hfa, Bool.false_and, Bool.false_or]
    · have hstep : allOutStep loc singleton strong (st0, b) a
          = ((st0.updateDFOutFromIn loc a loc a).1,
             b || (st0.updateDFOutFromIn loc a loc a).2) := by
        unfold allOutStep
        rw [if_neg hskip]
      rw [List.foldl_cons, hstep]
      obtain ⟨ih1, ih2, ih3⟩ := ih hndt (st0.updateDFOutFromIn loc a loc a).1
        (b || (st0.updateDFOutFromIn loc a loc a).2)
      refine ⟨?_, ?_, ?_⟩
      · intro x y
        rw [ih1, updateDFOutFromIn_dfInVal]
      · intro x y
        rw [ih2]
        by_cases hya : y = a
        · subst hya
          rw [if_neg (by rintro ⟨hx, hyt, hns⟩ ; exact hand hyt)]
          rw [updateDFOutFromIn_dfOutVal]
          by_cases hx : x = loc
          · subst hx
            rw [if_pos ⟨rfl, rfl⟩, if_pos ⟨rfl, List.mem_cons_self y t, hskip⟩]
          · rw [if_neg (by rintro ⟨h1, h2⟩ ; exact hx h1),
              if_neg (by rintro ⟨h1, h2, h3⟩ ; exact hx h1)]
        · have hrOut : (st0.updateDFOutFromIn loc a loc a).1.dfOutVal x y
              = st0.dfOutVal x y := by
            rw [updateDFOutFromIn_dfOutVal]
            exact if_neg (by rintro ⟨h1, h2⟩ ; exact hya h2)
          rw [hrOut, updateDFOutFromIn_dfInVal]
          apply if_congr _ rfl rfl
          constructor
          · rintro ⟨hx, hyt, hns⟩
            exact ⟨hx, List.mem_cons_of_mem a hyt, hns⟩
          · rintro ⟨hx, hyat, hns⟩
            rcases List.mem_cons.mp hyat with h1 | h1
            · exact absurd h1 hya
            · exact ⟨hx, h1, hns⟩
      · rw [ih3, List.any_cons]
        have hany : (t.any (fun k2 => decide (¬(strong = true ∧ k2 = singleton)) &&
              decide ((st0.updateDFOutFromIn loc a loc a).1.dfOutVal loc k2
                  ∪ (st0.updateDFOutFromIn loc a loc a).1.dfInVal loc k2
                ≠ (st0.updateDFOutFromIn loc a loc a).1.dfOutVal loc k2)))
            = t.any (fun k2 => decide (¬(strong = true ∧ k2 = singleton)) &&
              decide (st0.dfOutVal loc k2 ∪ st0.dfInVal loc k2 ≠ st0.dfOutVal loc k2)) := by
          apply list_any_congr
          intro k2 hk2
          have hka : ¬ k2 = a := fun hEq => hand (hEq ▸ hk2)
          have h1 : (st0.updateDFOutFromIn loc a loc a).1.dfOutVal loc k2
              = st0.dfOutVal loc k2 := by
            rw [updateDFOutFromIn_dfOutVal]
            exact if_neg (by rintro ⟨hh1, hh2⟩ ; exact hka hh2)
          rw [h1, updateDFOutFromIn_dfInVal]
        rw [hany, updateDFOutFromIn_flag2]
        have hfa : decide (¬(strong = true ∧ a = singleton)) = true := by simp [hskip]
        rw [hfa, Bool.true_and, Bool.or_assoc]

theorem updateAllDFOutFromIn_dfInVal (st : PersistentDFPTData)
    (loc singleton : Nat) (strong : Bool) (x y : Nat) :
    (st.updateAllDFOutFromIn loc singleton strong).1.dfInVal x y = st.dfInVal x y := by
  unfold updateAllDFOutFromIn
  by_cases hin : st.hasDFInSet loc = true
  · rw [if_pos hin]
    exact (allOut_foldl loc singleton strong _ (fsort_nodup _) st false).1 x y
  · rw [if_neg hin]

theorem updateAllDFOutFromIn_dfOutVal (st : PersistentDFPTData)
    (loc singleton : Nat) (strong : Bool) (x y : Nat) :
    (st.updateAllDFOutFromIn loc singleton strong).1.dfOutVal x y =
      if x = loc ∧ y ∈ (st.dfInPtsMap.get loc).dom ∧ ¬(strong = true ∧ y = singleton) then
        st.dfOutVal x y ∪ st.dfInVal loc y
      else st.dfOutVal x y := by
  unfold updateAllDFOutFromIn
  by_cases hin : st.hasDFInSet loc = true
  · rw [if_pos hin]
    rw [(allOut_foldl loc singleton strong _ (fsort_nodup _) st false).2.1 x y]
    apply if_congr _ rfl rfl
    constructor
    · rintro ⟨hx, hy, hns⟩
      exact ⟨hx, (mem_fsort _ _).mp hy, hns⟩
    · rintro ⟨hx, hy, hns⟩
      exact ⟨hx, (mem_fsort _ _).mpr hy, hns⟩
  · rw [if_neg hin]
    have hdom : (st.dfInPtsMap.get loc).dom = ∅ := by
      unfold hasDFInSet DFMap.containsLoc at hin
      unfold DFMap.get
      rw [if_neg (by simpa using hin)]
      rfl
    rw [if_neg (by rintro ⟨hx, hy, hns⟩ ; rw [hdom] at hy ; exact absurd hy (Finset.not_mem_empty y))]

theorem updateAllDFOutFromIn_flag (st : PersistentDFPTData)
    (loc singleton : Nat) (strong : Bool) :
    (st.updateAllDFOutFromIn loc singleton strong).2 =
      (fsort (st.dfInPtsMap.get loc).dom).any (fun k2 =>
        decide (¬(strong = true ∧ k2 = singleton)) &&
        decide (st.dfOutVal loc k2 ∪ st.dfInVal loc k2 ≠ st.dfOutVal loc k2)) := by
  unfold updateAllDFOutFromIn
  by_cases hin : st.hasDFInSet loc = true
  · rw [if_pos hin]
    rw [(allOut_foldl loc singleton strong _ (fsort_nodup _) st false).2.2]
    rw [Bool.false_or]
  · rw [if_neg hin]
    have hdom : (st.dfInPtsMap.get loc).dom = ∅ := by
      unfold hasDFInSet DFMap.containsLoc at hin
      unfold DFMap.get
      rw [if_neg (by simpa using hin)]
      rfl
    rw [hdom, fsort_empty]
    rfl

end PersistentDFPTData

namespace PersistentIncDFPTData

theorem updateDFOutFromIn_flag2I (st : PersistentIncDFPTData) (sL sK dL dK : Nat) :
    (st.updateDFOutFromIn sL sK dL dK).2 =
      (st.varHasNewDFInPts sL sK &&
        decide (st.dfOutValI dL dK ∪ st.dfInValI sL sK ≠ st.dfOutValI dL dK)) := by
  rw [updateDFOutFromIn_flag_eq, PersistentDFPTData.updateDFOutFromIn_flag2]
  rfl

theorem allOutI_foldl (loc singleton : Nat) (strong : Bool) :
    ∀ vars : List Nat, vars.Nodup → ∀ (st0 : PersistentIncDFPTData) (b : Bool),
      (∀ v2 ∈ vars, v2 ∈ st0.inUpdatedVarMap loc) →
      (∀ x y, (vars.foldl (allOutStepI loc singleton strong) (st0, b)).1.dfInValI x y
          = st0.dfInValI x y) ∧
      (∀ x y, (vars.foldl (allOutStepI loc singleton strong) (st0, b)).1.dfOutValI x y
          = if x = loc ∧ y ∈ vars ∧ ¬(strong = true ∧ y = singleton) then
              st0.dfOutValI x y ∪ st0.dfInValI loc y
            else st0.dfOutValI x y) ∧
      ((vars.foldl (allOutStepI loc singleton strong) (st0, b)).2
          = (b || vars.any (fun k2 => decide (¬(strong = true ∧ k2 = singleton)) &&
              decide (st0.dfOutValI loc k2 ∪ st0.dfInValI loc k2 ≠ st0.dfOutValI loc k2)))) ∧
      (∀ x, (vars.foldl (allOutStepI loc singleton strong) (st0, b)).1.inUpdatedVarMap x
          = if x = loc then
              st0.inUpdatedVarMap loc
                \ (vars.toFinset.filter (fun y => ¬(strong = true ∧ y = singleton)))
            else st0.inUpdatedVarMap x) := by
  intro vars
  induction vars with
  | nil =>
    intro _ st0 b _
    refine ⟨fun x y => rfl, fun x y => by simp, by simp, fun x => ?_⟩
    by_cases hx : x = loc
    · subst hx
      simp
    · rw [if_neg hx]
      rfl
  | cons a t ih =>
    intro hnd st0 b hsub
    have hand : a ∉ t := (List.nodup_cons.mp hnd).1
    have hndt : t.Nodup := (List.nodup_cons.mp hnd).2
    by_cases hskip : strong = true ∧ a = singleton
    · have hstep : allOutStepI loc singleton strong (st0, b) a = (st0, b) := by
        unfold allOutStepI
        rw [if_pos hskip]
      rw [List.foldl_cons, hstep]
      obtain ⟨ih1, ih2, ih3, ih4⟩ := ih hndt st0 b
        (fun v2 hv2 => hsub v2 (List.mem_cons_of_mem a hv2))
      refine ⟨ih1, fun x y => ?_, ?_, fun x => ?_⟩
      · rw [ih2]
        apply if_congr _ rfl rfl
        constructor
        · rintro ⟨hx, hyt, hns⟩
          exact ⟨hx, List.mem_cons_of_mem a hyt, hns⟩
        · rintro ⟨hx, hyat, hns⟩
          rcases List.mem_cons.mp hyat with hya | hyt
          · subst hya
            exact absurd hskip hns
          · exact ⟨hx, hyt, hns⟩
      · rw [ih3, List.any_cons]
        have hfa : decide (¬(strong = true ∧ a = singleton)) = false := by simp [hskip]
        rw [hfa, Bool.false_and, Bool.false_or]
      · rw [ih4]
        by_cases hx : x = loc
        · subst hx
          rw [if_pos rfl, if_pos rfl]
          have hfs : ((a :: t).toFinset.filter
                (fun y => ¬(strong = true ∧ y = singleton)))
              = (t.toFinset.filter (fun y => ¬(strong = true ∧ y = singleton))) := by
            rw [List.toFinset_cons, Finset.filter_insert, if_neg (by simpa using hskip)]
          rw [hfs]
        · rw [if_neg hx, if_neg hx]
    · have hga : st0.varHasNewDFInPts loc a = true := by
        unfold varHasNewDFInPts
        exact decide_eq_true (hsub a (List.mem_cons_self a t))
      have hstep : allOutStepI loc singleton strong (st0, b) a
          = ((st0.updateDFOutFromIn loc a loc a).1,
             b || (st0.updateDFOutFromIn loc a loc a).2) := by
        unfold allOutStepI
        rw [if_neg hskip]
      have hin0 : ∀ x, (st0.updateDFOutFromIn loc a loc a).1.inUpdatedVarMap x
          = if x = loc then (st0.inUpdatedVarMap x).erase a else st0.inUpdatedVarMap x := by
        intro x
        rw [updateDFOutFromIn_inUpdated]
        apply if_congr _ rfl rfl
        constructor
        · rintro ⟨h1, h2⟩
          exact h2
        · intro h1
          exact ⟨hga, h1⟩
      rw [List.foldl_cons, hstep]
      obtain ⟨ih1, ih2, ih3, ih4⟩ := ih hndt (st0.updateDFOutFromIn loc a loc a).1
        (b || (st0.updateDFOutFromIn loc a loc a).2)
        (by
          intro v2 hv2
          rw [hin0 loc, if_pos rfl, Finset.mem_erase]
          exact ⟨fun hEq => hand (hEq ▸ hv2), hsub v2 (List.mem_cons_of_mem a hv2)⟩)
      have hOutNe : ∀ x y, ¬ y = a →
          (st0.updateDFOutFromIn loc a loc a).1.dfOutValI x y = st0.dfOutValI x y := by
        intro x y hya
        rw [updateDFOutFromIn_dfOutValI]
        exact if_neg (by rintro ⟨h1, h2, h3⟩ ; exact hya h3)
      refine ⟨?_, ?_, ?_, ?_⟩
      · intro x y
        rw [ih1, updateDFOutFromIn_dfInValI]
      · intro x y
        rw [ih2]
        by_cases hya : y = a
        · subst hya
          rw [if_neg (by rintro ⟨hx, hyt, hns⟩ ; exact hand hyt)]
          rw [updateDFOutFromIn_dfOutValI]
          by_cases hx : x = loc
          · subst hx
            rw [if_pos ⟨hga, rfl, rfl⟩, if_pos ⟨rfl, List.mem_cons_self y t, hskip⟩]
          · rw [if_neg (by rintro ⟨h1, h2, h3⟩ ; exact hx h2),
              if_neg (by rintro ⟨h1, h2, h3⟩ ; exact hx h1)]
        · rw [hOutNe x y hya, updateDFOutFromIn_dfInValI]
          apply if_congr _ rfl rfl
          constructor
          · rintro ⟨hx, hyt, hns⟩
            exact ⟨hx, List.mem_cons_of_mem a hyt, hns⟩
          · rintro ⟨hx, hyat, hns⟩
            rcases List.mem_cons.mp hyat with h1 | h1
            · exact absurd h1 hya
            · exact ⟨hx, h1, hns⟩
      · rw [ih3, List.any_cons]
        have hany : (t.any (fun k2 => decide (¬(strong = true ∧ k2 = singleton)) &&
              decide ((st0.updateDFOutFromIn loc a loc a).1.dfOutValI loc k2
                  ∪ (st0.updateDFOutFromIn loc a loc a).1.dfInValI loc k2
                ≠ (st0.updateDFOutFromIn loc a loc a).1.dfOutValI loc k2)))
            = t.any (fun k2 => decide (¬(strong = true ∧ k2 = singleton)) &&
              decide (st0.dfOutValI loc k2 ∪ st0.dfInValI loc k2 ≠ st0.dfOutValI loc k2)) := by
          apply list_any_congr
          intro k2 hk2
          have hka : ¬ k2 = a := fun hEq => hand (hEq ▸ hk2)
          rw [hOutNe loc k2 hka, updateDFOutFromIn_dfInValI]
        rw [hany, updateDFOutFromIn_flag2I, hga, Bool.true_and]
        have hfa : decide (¬(strong = true ∧ a = singleton)) = true := by simp [hskip]
        rw [hfa, Bool.true_and, Bool.or_assoc]
      · intro x
        rw [ih4]
        by_cases hx : x = loc
        · subst hx
          rw [if_pos rfl, if_pos rfl, hin0, if_pos rfl]
          have hfs : ((a :: t).toFinset.filter
                (fun y => ¬(strong = true ∧ y = singleton)))
              = insert a (t.toFinset.filter (fun y => ¬(strong = true ∧ y = singleton))) := by
            rw [List.toFinset_cons, Finset.filter_insert, if_pos (by simpa using hskip)]
          rw [hfs]
          ext z
          simp only [Finset.mem_sdiff, Finset.mem_erase, Finset.mem_insert, Finset.mem_filter]
          tauto
        · rw [if_neg hx, if_neg hx, hin0, if_neg hx]

end PersistentIncDFPTData

namespace PersistentIncDFPTData

theorem updateAllDFOutFromInI_dfInVal (st : PersistentIncDFPTData)
    (loc singleton : Nat) (strong : Bool) (x y : Nat) :
    (st.updateAllDFOutFromIn loc singleton strong).1.dfInValI x y = st.dfInValI x y := by
  unfold updateAllDFOutFromIn
  by_cases hin : st.df.hasDFInSet loc = true
  · rw [if_pos hin]
    exact (allOutI_foldl loc singleton strong _ (fsort_nodup _) st false
      (fun v2 hv2 => (mem_fsort _ _).mp hv2)).1 x y
  · rw [if_neg hin]

theorem updateAllDFOutFromInI_dfOutVal (st : PersistentIncDFPTData)
    (loc singleton : Nat) (strong : Bool) (x y : Nat) :
    (st.updateAllDFOutFromIn loc singleton strong).1.dfOutValI x y =
      if x = loc ∧ y ∈ st.inUpdatedVarMap loc ∧ st.df.hasDFInSet loc = true
          ∧ ¬(strong = true ∧ y = singleton) then
        st.dfOutValI x y ∪ st.dfInValI loc y
      else st.dfOutValI x y := by
  unfold updateAllDFOutFromIn
  by_cases hin : st.df.hasDFInSet loc = true
  · rw [if_pos hin]
    rw [(allOutI_foldl loc singleton strong _ (fsort_nodup _) st false
      (fun v2 hv2 => (mem_fsort _ _).mp hv2)).2.1 x y]
    apply if_congr _ rfl rfl
    constructor
    · rintro ⟨hx, hy, hns⟩
      exact ⟨hx, (mem_fsort _ _).mp hy, hin, hns⟩
    · rintro ⟨hx, hy, _, hns⟩
      exact ⟨hx, (mem_fsort _ _).mpr hy, hns⟩
  · rw [if_neg hin]
    rw [if_neg (by rintro ⟨hx, hy, hg, hns⟩ ; exact hin hg)]

theorem updateAllDFOutFromInI_flag (st : PersistentIncDFPTData)
    (loc singleton : Nat) (strong : Bool) :
    (st.updateAllDFOutFromIn loc singleton strong).2 =
      (st.df.hasDFInSet loc &&
        (fsort (st.inUpdatedVarMap loc)).any (fun k2 =>
          decide (¬(strong = true ∧ k2 = singleton)) &&
          decide (st.dfOutValI loc k2 ∪ st.dfInValI loc k2 ≠ st.dfOutValI loc k2))) := by
  unfold updateAllDFOutFromIn
  by_cases hin : st.df.hasDFInSet loc = true
  · rw [if_pos hin, hin, Bool.true_and]
    rw [(allOutI_foldl loc singleton strong _ (fsort_nodup _) st false
      (fun v2 hv2 => (mem_fsort _ _).mp hv2)).2.2.1]
    rw [Bool.false_or]
  · rw [if_neg hin]
    rw [Bool.eq_false_iff.mpr hin, Bool.false_and]

theorem updateAllDFOutFromInI_inUpdated (st : PersistentIncDFPTData)
    (loc singleton : Nat) (strong : Bool) (x : Nat) :
    (st.updateAllDFOutFromIn loc singleton strong).1.inUpdatedVarMap x =
      if st.df.hasDFInSet loc = true ∧ x = loc then
        st.inUpdatedVarMap loc
          \ ((st.inUpdatedVarMap loc).filter (fun y => ¬(strong = true ∧ y = singleton)))
      else st.inUpdatedVarMap x := by
  unfold updateAllDFOutFromIn
  by_cases hin : st.df.hasDFInSet loc = true
  · rw [if_pos hin]
    rw [(allOutI_foldl loc singleton strong _ (fsort_nodup _) st false
      (fun v2 hv2 => (mem_fsort _ _).mp hv2)).2.2.2 x]
    by_cases hx : x = loc
    · subst hx
      rw [if_pos rfl, if_pos ⟨hin, rfl⟩, fsort_toFinset _]
    · rw [if_neg hx, if_neg (by rintro ⟨h1, h2⟩ ; exact hx h2)]
  · rw [if_neg hin, if_neg (by rintro ⟨h1, h2⟩ ; exact hin h1)]

end PersistentIncDFPTData

/-!  ## Specification of the counting in `topN` -/

/-- First-hit lookup in the association-list counter. -/
def assocVal : List (PointsToID × Nat) → PointsToID → Nat
  | [], _ => 0
  | (j, c) :: t, x => if j = x then c else assocVal t x

/-- The non-`EMPTY_ID` ids of all entries across the given maps, in
enumeration order. -/
def storeIds (maps : List IDMap) : List PointsToID :=
  (((maps.map IDMap.entries).flatten).map Prod.snd).filter
    (fun i => decide (i ≠ PersistentPointsToCache.emptyPointsToId))

/-- Per-distinct-id multiplicities of the non-empty ids. -/
def idMultiplicities (maps : List IDMap) : Multiset Nat :=
  (storeIds maps).toFinset.val.map (fun i => (storeIds maps).count i)

/-- Sum of the `n` largest elements of a multiset. -/
def sumTopN (n : Nat) (m : Multiset Nat) : Nat :=
  (((m.sort (· ≤ ·)).reverse).take n).sum

theorem foldl_countStep (entries : List (Nat × PointsToID)) :
    ∀ (cs : List (PointsToID × Nat)) (tot : Nat),
      entries.foldl countStep (cs, tot)
        = (((entries.map Prod.snd).filter
              (fun i => decide (i ≠ PersistentPointsToCache.emptyPointsToId))).foldl
                bumpCount cs,
           tot + ((entries.map Prod.snd).filter
              (fun i => decide (i ≠ PersistentPointsToCache.emptyPointsToId))).length) := by
  induction entries with
  | nil =>
    intro cs tot
    simp
  | cons pr rest ih =>
    intro cs tot
    rw [List.foldl_cons]
    by_cases hpr : pr.2 ≠ PersistentPointsToCache.emptyPointsToId
    · have hstep : countStep (cs, tot) pr = (bumpCount cs pr.2, tot + 1) := by
        unfold countStep
        rw [if_pos hpr]
      rw [hstep, ih]
      have hf : ((pr.2 :: rest.map Prod.snd).filter
            (fun i => decide (i ≠ PersistentPointsToCache.emptyPointsToId)))
          = pr.2 :: ((rest.map Prod.snd).filter
              (fun i => decide (i ≠ PersistentPointsToCache.emptyPointsToId))) :=
        List.filter_cons_of_pos (by simpa using hpr)
      simp only [List.map_cons, hf, List.foldl_cons, List.length_cons]
      refine congrArg₂ Prod.mk rfl ?_
      omega
    · have hstep : countStep (cs, tot) pr = (cs, tot) := by
        unfold countStep
        rw [if_neg hpr]
      rw [hstep, ih]
      have hf : ((pr.2 :: rest.map Prod.snd).filter
            (fun i => decide (i ≠ PersistentPointsToCache.emptyPointsToId)))
          = ((rest.map Prod.snd).filter
              (fun i => decide (i ≠ PersistentPointsToCache.emptyPointsToId))) :=
        List.filter_cons_of_neg (by simpa using hpr)
      simp only [List.map_cons, hf]

theorem bumpCount_cons_eq (t : List (PointsToID × Nat)) (j : PointsToID) (c : Nat)
    (i : PointsToID) (h : j = i) : bumpCount ((j, c) :: t) i = (j, c + 1) :: t := by
  unfold bumpCount
  rw [if_pos h]

theorem bumpCount_cons_ne (t : List (PointsToID × Nat)) (j : PointsToID) (c : Nat)
    (i : PointsToID) (h : ¬ j = i) :
    bumpCount ((j, c) :: t) i = (j, c) :: bumpCount t i := by
  simp only [bumpCount]
  rw [if_neg h]

theorem assocVal_bumpCount (i x : PointsToID) :
    ∀ m : List (PointsToID × Nat),
      assocVal (bumpCount m i) x = assocVal m x + (if x = i then 1 else 0) := by
  intro m
  induction m with
  | nil =>
    show assocVal [(i, 1)] x = assocVal [] x + (if x = i then 1 else 0)
    by_cases h : x = i
    · subst h
      simp [assocVal]
    · have h2 : ¬ i = x := fun hh => h hh.symm
      simp [assocVal, h, h2]
  | cons pr t ih =>
    obtain ⟨j, c⟩ := pr
    by_cases hji : j = i
    · rw [bumpCount_cons_eq t j c i hji]
      by_cases hjx : j = x
      · have hxi : x = i := by rw [← hjx, hji]
        simp [assocVal, hjx, hxi]
      · have hxi : ¬ x = i := by
          intro hh
          exact hjx (by rw [hji, ← hh])
        simp [assocVal, hjx, hxi]
    · rw [bumpCount_cons_ne t j c i hji]
      by_cases hjx : j = x
      · have hxi : ¬ x = i := by
          intro hh
          exact hji (by rw [hjx, hh])
        simp [assocVal, hjx, hxi]
      · simp [assocVal, hjx, ih]

theorem mem_keys_bumpCount (i x : PointsToID) :
    ∀ m : List (PointsToID × Nat),
      (x ∈ (bumpCount m i).map Prod.fst ↔ x ∈ m.map Prod.fst ∨ x = i) := by
  intro m
  induction m with
  | nil =>
    show x ∈ List.map Prod.fst [(i, 1)] ↔ x ∈ List.map Prod.fst [] ∨ x = i
    simp
  | cons pr t ih =>
    obtain ⟨j, c⟩ := pr
    by_cases hji : j = i
    · rw [bumpCount_cons_eq t j c i hji, List.map_cons, List.map_cons]
      subst hji
      simp only [List.mem_cons]
      tauto
    · rw [bumpCount_cons_ne t j c i hji, List.map_cons, List.map_cons]
      simp only [List.mem_cons, ih]
      tauto

theorem nodup_keys_bumpCount (i : PointsToID) :
    ∀ m : List (PointsToID × Nat),
      (m.map Prod.fst).Nodup → ((bumpCount m i).map Prod.fst).Nodup := by
  intro m
  induction m with
  | nil =>
    intro _
    show (List.map Prod.fst [(i, 1)]).Nodup
    simp
  | cons pr t ih =>
    obtain ⟨j, c⟩ := pr
    intro hnd
    rw [List.map_cons, List.nodup_cons] at hnd
    by_cases hji : j = i
    · rw [bumpCount_cons_eq t j c i hji, List.map_cons, List.nodup_cons]
      exact hnd
    · rw [bumpCount_cons_ne t j c i hji, List.map_cons, List.nodup_cons]
      constructor
      · intro hmem
        rcases (mem_keys_bumpCount i j t).mp hmem with h | h
        · exact hnd.1 h
        · exact hji h
      · exact ih hnd.2

theorem assocVal_countsFold (ids : List PointsToID) :
    ∀ (cs : List (PointsToID × Nat)) (x : PointsToID),
      assocVal (ids.foldl bumpCount cs) x = assocVal cs x + ids.count x := by
  induction ids with
  | nil =>
    intro cs x
    simp
  | cons a t ih =>
    intro cs x
    rw [List.foldl_cons, ih, assocVal_bumpCount]
    rw [List.count_cons]
    by_cases hxa : x = a
    · subst hxa
      simp
      omega
    · have h2 : ¬ a = x := fun hh => hxa hh.symm
      simp [hxa, h2]

theorem mem_keys_countsFold (ids : List PointsToID) :
    ∀ (cs : List (PointsToID × Nat)) (x : PointsToID),
      (x ∈ (ids.foldl bumpCount cs).map Prod.fst ↔ x ∈ cs.map Prod.fst ∨ x ∈ ids) := by
  induction ids with
  | nil =>
    intro cs x
    simp
  | cons a t ih =>
    intro cs x
    rw [List.foldl_cons, ih, mem_keys_bumpCount]
    simp only [List.mem_cons]
    tauto

theorem nodup_keys_countsFold (ids : List PointsToID) :
    ∀ cs : List (PointsToID × Nat),
      (cs.map Prod.fst).Nodup → ((ids.foldl bumpCount cs).map Prod.fst).Nodup := by
  induction ids with
  | nil =>
    intro cs h
    exact h
  | cons a t ih =>
    intro cs h
    rw [List.foldl_cons]
    exact ih _ (nodup_keys_bumpCount a cs h)

theorem snd_eq_assocVal (m : List (PointsToID × Nat)) :
    (m.map Prod.fst).Nodup → ∀ pr ∈ m, pr.2 = assocVal m pr.1 := by
  induction m with
  | nil =>
    intro _ pr hpr
    exact absurd hpr (List.not_mem_nil pr)
  | cons hd t ih =>
    obtain ⟨j, c⟩ := hd
    intro hnd pr hpr
    rw [List.map_cons, List.nodup_cons] at hnd
    rcases List.mem_cons.mp hpr with h | h
    · subst h
      simp [assocVal]
    · have hj : ¬ j = pr.1 := by
        intro hEq
        apply hnd.1
        rw [hEq]
        exact List.mem_map.mpr ⟨pr, h, rfl⟩
      simp only [assocVal, if_neg hj]
      exact ih hnd.2 pr h

theorem values_countsFold (ids : List PointsToID) :
    (((ids.foldl bumpCount []).map Prod.snd : List Nat) : Multiset Nat)
      = ids.toFinset.val.map (fun i => ids.count i) := by
  have hnd : (((ids.foldl bumpCount []).map Prod.fst)).Nodup :=
    nodup_keys_countsFold ids [] (by simp)
  have hval : ∀ x, assocVal (ids.foldl bumpCount []) x = ids.count x := by
    intro x
    rw [assocVal_countsFold]
    simp [assocVal]
  have h1 : (ids.foldl bumpCount []).map Prod.snd
      = ((ids.foldl bumpCount []).map Prod.fst).map (fun i => ids.count i) := by
    rw [List.map_map]
    apply List.map_congr_left
    intro pr hpr
    show pr.2 = ids.count pr.1
    rw [← hval pr.1]
    exact snd_eq_assocVal (ids.foldl bumpCount []) hnd pr hpr
  rw [h1]
  have h2 : (((ids.foldl bumpCount []).map Prod.fst : List PointsToID) : Multiset PointsToID)
      = ids.toFinset.val := by
    have hfs : ((ids.foldl bumpCount []).map Prod.fst).toFinset = ids.toFinset := by
      apply Finset.ext
      intro a
      rw [List.mem_toFinset, List.mem_toFinset, mem_keys_countsFold]
      simp
    rw [← hfs]
    rw [← List.toFinset_eq hnd]
  rw [← h2]
  exact (Multiset.map_coe _ _).symm

instance : IsTrans Nat (fun a b : Nat => a ≥ b) := ⟨fun _ _ _ h1 h2 => le_trans h2 h1⟩

instance : IsAntisymm Nat (fun a b : Nat => a ≥ b) := ⟨fun _ _ h1 h2 => le_antisymm h2 h1⟩

instance : IsTotal Nat (fun a b : Nat => a ≥ b) := ⟨fun a b => (le_total b a).imp id id⟩

theorem sortDesc_eq_sort_reverse (l : List Nat) (m : Multiset Nat)
    (h : (l : Multiset Nat) = m) :
    sortDesc l = (m.sort (· ≤ ·)).reverse := by
  have hperm : List.Perm (sortDesc l) ((m.sort (· ≤ ·)).reverse) := by
    have h1 : List.Perm (sortDesc l) l := List.perm_insertionSort _ l
    have h2 : List.Perm (m.sort (· ≤ ·)) ((m.sort (· ≤ ·)).reverse) :=
      (List.reverse_perm _).symm
    have h3 : List.Perm l (m.sort (· ≤ ·)) := by
      rw [← Multiset.coe_eq_coe, Multiset.sort_eq, h]
    exact h1.trans (h3.trans h2)
  have hs1 : List.Sorted (fun a b : Nat => a ≥ b) (sortDesc l) :=
    List.sorted_insertionSort _ l
  have hs2 : List.Sorted (fun a b : Nat => a ≥ b) ((m.sort (· ≤ ·)).reverse) := by
    have hs : List.Sorted (· ≤ ·) (m.sort (· ≤ ·)) := Multiset.sort_sorted _ m
    unfold List.Sorted at hs ⊢
    rw [List.pairwise_reverse]
    exact hs
  exact List.eq_of_perm_of_sorted hperm hs1 hs2

theorem topNPair_spec (n : Nat) (maps : List IDMap) :
    topNPair n maps = (sumTopN n (idMultiplicities maps), (storeIds maps).length) := by
  unfold topNPair sumTopN idMultiplicities
  dsimp only
  rw [foldl_countStep]
  have hids : ((((maps.map IDMap.entries).flatten).map Prod.snd).filter
        (fun i => decide (i ≠ PersistentPointsToCache.emptyPointsToId)))
      = storeIds maps := rfl
  rw [hids]
  refine congrArg₂ Prod.mk ?_ (by omega)
  rw [sortDesc_eq_sort_reverse _ _ (values_countsFold (storeIds maps))]

/-!  ## Characterisation of `computeDiffPts` -/

namespace PersistentDiffPTData

theorem computeDiffPts_getDiffPtsVal (st : PersistentDiffPTData) (k : Nat)
    (S : Finset Nat) (x : Nat) :
    getDiffPtsVal (st.computeDiffPts k S).1 x =
      if x = k then S \ st.getPropaVal k else getDiffPtsVal st x := by
  unfold computeDiffPts getDiffPtsVal getPropaVal
  dsimp only
  simp only [PersistentPointsToCache.getActualPts, PersistentPointsToCache.emplacePts,
    PersistentPointsToCache.complementPts, IDMap.get_set, IDMap.get_touch]

theorem computeDiffPts_getPropaVal (st : PersistentDiffPTData) (k : Nat)
    (S : Finset Nat) (x : Nat) :
    getPropaVal (st.computeDiffPts k S).1 x =
      if x = k then S else getPropaVal st x := by
  unfold computeDiffPts getPropaVal
  dsimp only
  simp only [PersistentPointsToCache.getActualPts, PersistentPointsToCache.emplacePts,
    IDMap.get_set, IDMap.get_touch]

theorem computeDiffPts_flag (st : PersistentDiffPTData) (k : Nat) (S : Finset Nat) :
    (st.computeDiffPts k S).2
      = decide (S \ st.getPropaVal k ≠ (∅ : Finset Nat)) := by
  unfold computeDiffPts getPropaVal
  dsimp only
  simp only [PersistentPointsToCache.getActualPts, PersistentPointsToCache.emplacePts,
    PersistentPointsToCache.complementPts, PersistentPointsToCache.emptyPointsToId,
    IDMap.get_touch]

end PersistentDiffPTData

/-!  ## Claim theorems -/

/-- C2: in a basic store constructed with reverse tracking enabled, after any
sequence of `addPts`, `unionPts` (both overloads), `clearPts` and
`clearFullPts` operations, for every Key `k` and Data `d`: `d ∈ getPts(k)` iff
`k ∈ getRevPts(d)`. -/
theorem claim_C2_reverse_consistency (ops : List BasicOp) (k d : Nat) :
    d ∈ (applyBasicOps (PersistentPTData.init true) ops).getPtsVal k
      ↔ k ∈ (applyBasicOps (PersistentPTData.init true) ops).getRevPtsVal d :=
  revConsistent_applyBasicOps ops (PersistentPTData.init true) rfl revConsistent_init k d

/-- C3 counterexample: `computeDiffPts(0, {5})` followed by
`computeDiffPts(0, ∅)`.  At the second call `S = ∅` but
`getDiffPts(0) ∪ propa_before[0] = ∅ ∪ {5} = {5} ≠ ∅`, refuting the claimed
equation `getDiffPts(k) ∪ propa_before[k] = S` for arbitrary `S` (the
previously propagated set need not be contained in `S`). -/
theorem claim_C3_counterexample :
    ¬ (PersistentDiffPTData.getDiffPtsVal
          (PersistentDiffPTData.computeDiffPts
            ((PersistentDiffPTData.init true).computeDiffPts 0 {5}).1 0 ∅).1 0
        ∪ PersistentDiffPTData.getPropaVal
            ((PersistentDiffPTData.init true).computeDiffPts 0 {5}).1 0
      = (∅ : Finset Nat)) := by decide

/-- C3 (amended): after `computeDiffPts(k, S)`: `getDiffPts(k) = S ∖
propa_before[k]`, hence `getDiffPts(k) ∩ propa_before[k] = ∅`; `propa[k]`
becomes `S`; the call returns true iff the computed diff is non-empty; an
immediately repeated identical call returns false with empty diff; and the
union law `getDiffPts(k) ∪ propa_before[k] = S` holds provided
`propa_before[k] ⊆ S` (the claim's unconditional union law fails otherwise). -/
theorem claim_C3_diff_law_amended (st : PersistentDiffPTData) (k : Nat) (S : Finset Nat) :
    PersistentDiffPTData.getDiffPtsVal (st.computeDiffPts k S).1 k = S \ st.getPropaVal k
    ∧ PersistentDiffPTData.getDiffPtsVal (st.computeDiffPts k S).1 k ∩ st.getPropaVal k
        = ∅
    ∧ PersistentDiffPTData.getPropaVal (st.computeDiffPts k S).1 k = S
    ∧ (st.computeDiffPts k S).2
        = decide (PersistentDiffPTData.getDiffPtsVal (st.computeDiffPts k S).1 k
            ≠ (∅ : Finset Nat))
    ∧ ((st.computeDiffPts k S).1.computeDiffPts k S).2 = false
    ∧ PersistentDiffPTData.getDiffPtsVal
        ((st.computeDiffPts k S).1.computeDiffPts k S).1 k = ∅
    ∧ (st.getPropaVal k ⊆ S →
        PersistentDiffPTData.getDiffPtsVal (st.computeDiffPts k S).1 k
          ∪ st.getPropaVal k = S) := by
  have hd := PersistentDiffPTData.computeDiffPts_getDiffPtsVal st k S k
  rw [if_pos rfl] at hd
  have hp := PersistentDiffPTData.computeDiffPts_getPropaVal st k S k
  rw [if_pos rfl] at hp
  have hd2 := PersistentDiffPTData.computeDiffPts_getDiffPtsVal
    (st.computeDiffPts k S).1 k S k
  rw [if_pos rfl, hp] at hd2
  refine ⟨hd, ?_, hp, ?_, ?_, ?_, ?_⟩
  · rw [hd]
    exact Finset.sdiff_inter_self _ _
  · rw [PersistentDiffPTData.computeDiffPts_flag, hd]
  · rw [PersistentDiffPTData.computeDiffPts_flag, hp]
    simp
  · rw [hd2]
    simp
  · intro hsub
    rw [hd, Finset.sdiff_union_self_eq_union]
    exact Finset.union_eq_left.mpr hsub

/-- C3 amended, witnessed at the fresh store, `k = 0`, `S = {1}`: the
propagated set `∅` is contained in `S`, and the union law holds there. -/
theorem claim_C3_diff_law_amended_witness :
    PersistentDiffPTData.getPropaVal (PersistentDiffPTData.init true) 0 ⊆ {1}
    ∧ PersistentDiffPTData.getDiffPtsVal
        ((PersistentDiffPTData.init true).computeDiffPts 0 {1}).1 0
        ∪ PersistentDiffPTData.getPropaVal (PersistentDiffPTData.init true) 0 = {1} :=
  ⟨by decide,
   (claim_C3_diff_law_amended (PersistentDiffPTData.init true) 0 {1}).2.2.2.2.2.2
     (by decide)⟩

/-- C4: the code contradicts the claim.  After `updateDFInFromIn(0,0,0,0)`
creates an IN entry at location 0, `clear()` leaves it in place —
`hasDFInSet(0)` still returns `true` (the DFStore `clear` resets only the
embedded basic store; the source's own TODO concedes `dfIn`/`dfOut` are not
cleared) — whereas the claim requires `hasDFInSet(l) = false` for every
location after `clear()`.  The embedded basic store, by contrast, is
cleared, as the second conjunct shows. -/
theorem claim_C4_clear_bug :
    PersistentDFPTData.hasDFInSet
        (PersistentDFPTData.clear
          (((PersistentDFPTData.init true).updateDFInFromIn 0 0 0 0).1)) 0 = true
    ∧ PersistentPTData.getPtsVal
        (PersistentDFPTData.clear
          (((PersistentDFPTData.init true).addPts 1 7).1)).persPTData 1
        = (∅ : Finset Nat) := by
  refine ⟨by decide, by decide⟩

/-- C8: the cross-space union `unionPts(dst : VersionedKey, src : Key)` unions
the top-level store's set for `src` into the versioned (address-taken) store's
set for `dst` through the shared cache, reporting exactly whether the
destination moved; and in the concrete scenario — fresh reverse-enabled store,
`tl.addPts(k = 0, 7)` then `union(vk = 1, k = 0)` — `getPts(vk) = {7}`,
`getVersionedKeyRevPts(7) = {vk}` and `getRevPts(7) = {k}`. -/
theorem claim_C8_cross_space_union :
    (∀ (st : PersistentVersionedPTData) (dst src : Nat),
        (st.unionPtsVKFromK dst src).1.getPtsValVK dst
            = st.getPtsValVK dst ∪ st.getPtsVal src
        ∧ (st.unionPtsVKFromK dst src).2
            = decide ((st.unionPtsVKFromK dst src).1.getPtsValVK dst
                ≠ st.getPtsValVK dst))
    ∧ ((((PersistentVersionedPTData.init true).addPts 0 7).1.unionPtsVKFromK 1 0).1.getPtsValVK 1
          = ({7} : Finset Nat)
      ∧ (((PersistentVersionedPTData.init true).addPts 0 7).1.unionPtsVKFromK 1 0).1.getVersionedKeyRevPtsVal 7
          = ({1} : Finset Nat)
      ∧ (((PersistentVersionedPTData.init true).addPts 0 7).1.unionPtsVKFromK 1 0).1.getRevPtsVal 7
          = ({0} : Finset Nat)) := by
  constructor
  · intro st dst src
    constructor
    · unfold PersistentVersionedPTData.unionPtsVKFromK PersistentVersionedPTData.getPtsValVK
        PersistentVersionedPTData.getPtsVal
      dsimp only
      rw [PersistentPTData.unionPtsFromId_getPtsVal, if_pos rfl]
      unfold PersistentPTData.getPtsVal
      rw [IDMap.get_touch]
      rfl
    · unfold PersistentVersionedPTData.unionPtsVKFromK PersistentVersionedPTData.getPtsValVK
      dsimp only
      exact PersistentPTData.unionPtsFromId_flag st.atPTData dst _
  · refine ⟨by decide, by decide, by decide⟩

/-- C9 counterexample: in a DiffStore, after `computeDiffPts(0, {1})` the
`diff` and `propa` maps each hold one non-empty entry but the basic pts map is
empty.  `topN` delegates to the embedded basic store only, returning `(0, 0)`,
whereas enumerating all Key→ID maps the store owns (pts, diff and propa)
would return `(2, 2)` — so `topN` does not enumerate every Key→ID map owned
by the store, refuting the claim for the Diff variant. -/
theorem claim_C9_counterexample :
    PersistentDiffPTData.topN ((PersistentDiffPTData.init true).computeDiffPts 0 {1}).1 2
      ≠ topNPair 2
          [((PersistentDiffPTData.init true).computeDiffPts 0 {1}).1.persPTData.ptsMap,
           ((PersistentDiffPTData.init true).computeDiffPts 0 {1}).1.diffPtsMap,
           ((PersistentDiffPTData.init true).computeDiffPts 0 {1}).1.propaPtsMap] := by
  decide

/-- The basic store of the concrete Top-N scenario: keys 0–4 point to `{1}`,
keys 5–7 to `{1, 2}`, key 8 to `{1, 2, 3}`. -/
def c9Store : PersistentPTData :=
  let s := PersistentPTData.init true
  let s := (s.addPts 0 1).1
  let s := (s.addPts 1 1).1
  let s := (s.addPts 2 1).1
  let s := (s.addPts 3 1).1
  let s := (s.addPts 4 1).1
  let s := (s.addPts 5 1).1
  let s := (s.addPts 5 2).1
  let s := (s.addPts 6 1).1
  let s := (s.addPts 6 2).1
  let s := (s.addPts 7 1).1
  let s := (s.addPts 7 2).1
  let s := (s.addPts 8 1).1
  let s := (s.addPts 8 2).1
  (s.addPts 8 3).1

/-- C9 (amended): each variant's `topN(n)` enumerates the `(key, id)` entries
of the maps that variant consults — the basic store its pts map; the Diff
store only the embedded basic store's pts map (its diff/propa bookkeeping
maps are not enumerated); the DF store the pts map plus every per-location IN
and OUT map; the Versioned store both spaces' pts maps — skips `EMPTY_ID`
entries, counts occurrences per id, and returns (sum of the n largest counts,
number of non-empty entries); in particular, with 5 keys pointing to `{1}`,
3 keys to `{1,2}` and 1 key to `{1,2,3}`, `topN(2) = (8, 9)`. -/
theorem claim_C9_topn_amended :
    (∀ (st : PersistentPTData) (n : Nat),
        st.topN n = (sumTopN n (idMultiplicities [st.ptsMap]),
                     (storeIds [st.ptsMap]).length))
    ∧ (∀ (st : PersistentDiffPTData) (n : Nat),
        st.topN n = st.persPTData.topN n)
    ∧ (∀ (st : PersistentDFPTData) (n : Nat),
        st.topN n =
          (sumTopN n (idMultiplicities
              (st.persPTData.ptsMap ::
                (PersistentDFPTData.DFMapInnerMaps st.dfInPtsMap
                  ++ PersistentDFPTData.DFMapInnerMaps st.dfOutPtsMap))),
           (storeIds (st.persPTData.ptsMap ::
                (PersistentDFPTData.DFMapInnerMaps st.dfInPtsMap
                  ++ PersistentDFPTData.DFMapInnerMaps st.dfOutPtsMap))).length))
    ∧ (∀ (st : PersistentVersionedPTData) (n : Nat),
        st.topN n = (sumTopN n (idMultiplicities [st.tlPTData.ptsMap, st.atPTData.ptsMap]),
                     (storeIds [st.tlPTData.ptsMap, st.atPTData.ptsMap]).length))
    ∧ c9Store.topN 2 = (8, 9) := by
  refine ⟨?_, ?_, ?_, ?_, by decide⟩
  · intro st n
    exact topNPair_spec n [st.ptsMap]
  · intro st n
    rfl
  · intro st n
    exact topNPair_spec n _
  · intro st n
    exact topNPair_spec n _

/-- C5: in the DF store, `updateAllDFOutFromIn(l, v, true)` never modifies
`dfOut[l][v]`; for every other key `k` with an entry in `dfIn[l]` it performs
the per-key transfer (so `dfOut[l][k]` becomes `dfOut[l][k] ∪ dfIn[l][k]`, a
superset of `dfIn[l][k]`); all other entries are untouched; and the call
returns true exactly when some destination entry of `dfOut[l]` changed. -/
theorem claim_C5_strong_update (st : PersistentDFPTData) (l v : Nat) :
    (st.updateAllDFOutFromIn l v true).1.dfOutVal l v = st.dfOutVal l v
    ∧ (∀ k, (st.updateAllDFOutFromIn l v true).1.dfOutVal l k
        = if ¬ k = v ∧ k ∈ (st.dfInPtsMap.get l).dom then
            st.dfOutVal l k ∪ st.dfInVal l k
          else st.dfOutVal l k)
    ∧ (∀ k, ¬ k = v → k ∈ (st.dfInPtsMap.get l).dom →
        st.dfInVal l k ⊆ (st.updateAllDFOutFromIn l v true).1.dfOutVal l k)
    ∧ (st.updateAllDFOutFromIn l v true).2
        = (fsort (st.dfInPtsMap.get l).dom).any (fun k =>
            decide ((st.updateAllDFOutFromIn l v true).1.dfOutVal l k
              ≠ st.dfOutVal l k)) := by
  have hval : ∀ k, (st.updateAllDFOutFromIn l v true).1.dfOutVal l k
      = if ¬ k = v ∧ k ∈ (st.dfInPtsMap.get l).dom then
          st.dfOutVal l k ∪ st.dfInVal l k
        else st.dfOutVal l k := by
    intro k
    rw [PersistentDFPTData.updateAllDFOutFromIn_dfOutVal]
    apply if_congr _ rfl rfl
    constructor
    · rintro ⟨_, hk, hns⟩
      exact ⟨fun hkv => hns ⟨rfl, hkv⟩, hk⟩
    · rintro ⟨hkv, hk⟩
      exact ⟨rfl, hk, fun hc => hkv hc.2⟩
  refine ⟨?_, hval, ?_, ?_⟩
  · rw [hval v, if_neg (by rintro ⟨h1, h2⟩ ; exact h1 rfl)]
  · intro k hkv hk
    rw [hval k, if_pos ⟨hkv, hk⟩]
    exact Finset.subset_union_right
  · rw [PersistentDFPTData.updateAllDFOutFromIn_flag]
    apply list_any_congr
    intro k hk
    have hkdom : k ∈ (st.dfInPtsMap.get l).dom := (mem_fsort _ _).mp hk
    by_cases hkv : k = v
    · have h1 : decide (¬(true = true ∧ k = v)) = false := by simp [hkv]
      have h2 : (st.updateAllDFOutFromIn l v true).1.dfOutVal l k = st.dfOutVal l k := by
        rw [hval k, if_neg (by rintro ⟨hc, _⟩ ; exact hc hkv)]
      rw [h1, Bool.false_and, h2]
      simp
    · have h1 : decide (¬(true = true ∧ k = v)) = true := by simp [hkv]
      have h2 : (st.updateAllDFOutFromIn l v true).1.dfOutVal l k
          = st.dfOutVal l k ∪ st.dfInVal l k := by
        rw [hval k, if_pos ⟨hkv, hkdom⟩]
      rw [h1, Bool.true_and, h2]

/-- The DF store used to witness C5: `dfIn[0] = {1 ↦ {10}, 2 ↦ {20}}`,
`dfOut` empty. -/
def c5Store : PersistentDFPTData :=
  { persPTData := PersistentPTData.init true,
    dfInPtsMap := ⟨{0}, fun _ => ⟨{1, 2}, fun k => if k = 1 then {10} else {20}⟩⟩,
    dfOutPtsMap := DFMap.empty }

/-- C5 witnessed at `l = 0`, `v = 1`, `k = 2`: key 2 is a non-singleton key
present in `dfIn[0]`, and after the call `dfOut[0][2] ⊇ dfIn[0][2]`. -/
theorem claim_C5_strong_update_witness :
    (¬ (2 : Nat) = 1) ∧ (2 ∈ (c5Store.dfInPtsMap.get 0).dom)
    ∧ c5Store.dfInVal 0 2 ⊆ (c5Store.updateAllDFOutFromIn 0 1 true).1.dfOutVal 0 2 :=
  ⟨by decide, by decide,
   (claim_C5_strong_update c5Store 0 1).2.2.1 2 (by decide) (by decide)⟩

/-- C6: in the incremental store, `updateDFInFromIn(sL,sK,dL,dK)` with a
source that is not IN-dirty returns false and leaves every `dfIn` entry (in
particular `dfIn[dL][dK]`) unchanged, even when the source and destination
sets differ; when the source is IN-dirty the union is performed, the call
returns true exactly when the destination id moved, and on success
`(dL, dK)` is marked IN-dirty. -/
theorem claim_C6_incremental_skip (st : PersistentIncDFPTData) (sL sK dL dK : Nat) :
    (∀ x y, (st.updateDFInFromIn sL sK dL dK).1.dfInValI x y
        = if st.varHasNewDFInPts sL sK = true ∧ x = dL ∧ y = dK then
            st.dfInValI dL dK ∪ st.dfInValI sL sK
          else st.dfInValI x y)
    ∧ (st.updateDFInFromIn sL sK dL dK).2
        = (st.varHasNewDFInPts sL sK &&
            decide ((st.updateDFInFromIn sL sK dL dK).1.dfInValI dL dK
              ≠ st.dfInValI dL dK))
    ∧ (∀ x, (st.updateDFInFromIn sL sK dL dK).1.inUpdatedVarMap x
        = if (st.updateDFInFromIn sL sK dL dK).2 = true ∧ x = dL then
            insert dK (st.inUpdatedVarMap x)
          else st.inUpdatedVarMap x) := by
  refine ⟨fun x y => PersistentIncDFPTData.updateDFInFromIn_dfInValI st sL sK dL dK x y,
    ?_, fun x => PersistentIncDFPTData.updateDFInFromIn_inUpdated st sL sK dL dK x⟩
  by_cases hg : st.varHasNewDFInPts sL sK = true
  · rw [hg, Bool.true_and]
    exact PersistentIncDFPTData.updateDFInFromIn_flagI st sL sK dL dK
  · rw [Bool.eq_false_iff.mpr hg, Bool.false_and,
      PersistentIncDFPTData.updateDFInFromIn_flag_eq,
      Bool.eq_false_iff.mpr hg, Bool.false_and]

/-- C7: in the incremental store, `updateDFOutFromIn(sL,sK,dL,dK)` does
nothing and returns false when `(sL, sK)` is not IN-dirty; when it is
IN-dirty the flag is consumed (removed from `inDirty[sL]`) regardless of
whether the union changes anything, `dfOut[dL][dK]` becomes
`dfOut[dL][dK] ∪ dfIn[sL][sK]`, the IN sets are untouched, and `(dL, dK)` is
marked OUT-dirty exactly when the call returns true, i.e. when the union
changed the destination id. -/
theorem claim_C7_consume_dirty (st : PersistentIncDFPTData) (sL sK dL dK : Nat) :
    (∀ x y, (st.updateDFOutFromIn sL sK dL dK).1.dfOutValI x y
        = if st.varHasNewDFInPts sL sK = true ∧ x = dL ∧ y = dK then
            st.dfOutValI dL dK ∪ st.dfInValI sL sK
          else st.dfOutValI x y)
    ∧ (∀ x y, (st.updateDFOutFromIn sL sK dL dK).1.dfInValI x y = st.dfInValI x y)
    ∧ (st.updateDFOutFromIn sL sK dL dK).2
        = (st.varHasNewDFInPts sL sK &&
            decide ((st.updateDFOutFromIn sL sK dL dK).1.dfOutValI dL dK
              ≠ st.dfOutValI dL dK))
    ∧ (∀ x, (st.updateDFOutFromIn sL sK dL dK).1.inUpdatedVarMap x
        = if st.varHasNewDFInPts sL sK = true ∧ x = sL then
            (st.inUpdatedVarMap x).erase sK
          else st.inUpdatedVarMap x)
    ∧ (∀ x, (st.updateDFOutFromIn sL sK dL dK).1.outUpdatedVarMap x
        = if (st.updateDFOutFromIn sL sK dL dK).2 = true ∧ x = dL then
            insert dK (st.outUpdatedVarMap x)
          else st.outUpdatedVarMap x) := by
  refine ⟨fun x y => PersistentIncDFPTData.updateDFOutFromIn_dfOutValI st sL sK dL dK x y,
    fun x y => PersistentIncDFPTData.updateDFOutFromIn_dfInValI st sL sK dL dK x y,
    ?_,
    fun x => PersistentIncDFPTData.updateDFOutFromIn_inUpdated st sL sK dL dK x,
    fun x => PersistentIncDFPTData.updateDFOutFromIn_outUpdated st sL sK dL dK x⟩
  by_cases hg : st.varHasNewDFInPts sL sK = true
  · rw [hg, Bool.true_and]
    exact PersistentIncDFPTData.updateDFOutFromIn_flagI st sL sK dL dK
  · rw [Bool.eq_false_iff.mpr hg, Bool.false_and,
      PersistentIncDFPTData.updateDFOutFromIn_flag_eq,
      Bool.eq_false_iff.mpr hg, Bool.false_and]

/-- C10: in the incremental store, `updateAllDFOutFromIn(l, v, true)` iterates
a snapshot of `l`'s IN-dirty set taken before any mutation: afterwards the
IN-dirty set at `l` is exactly its old value intersected with `{v}` — every
variable that was IN-dirty at `l` other than `v` has its flag cleared
(whether or not its OUT entry changed), while `v`'s flag, if set, remains.
The hypothesis covers every state the store's own operations can produce: a
location acquires IN-dirty variables only after its `dfIn` entry is created,
so a location with a non-empty dirty set always has an IN map entry. -/
theorem claim_C10_snapshot_dirty (st : PersistentIncDFPTData) (l v : Nat)
    (H : st.df.hasDFInSet l = true ∨ st.inUpdatedVarMap l = ∅) :
    (st.updateAllDFOutFromIn l v true).1.inUpdatedVarMap l
      = st.inUpdatedVarMap l ∩ {v} := by
  rw [PersistentIncDFPTData.updateAllDFOutFromInI_inUpdated]
  rcases H with H | H
  · rw [if_pos ⟨H, rfl⟩]
    ext z
    simp only [Finset.mem_sdiff, Finset.mem_filter, Finset.mem_inter, Finset.mem_singleton]
    tauto
  · by_cases hg : st.df.hasDFInSet l = true
    · rw [if_pos ⟨hg, rfl⟩, H]
      simp
    · rw [if_neg (by rintro ⟨h1, h2⟩ ; exact hg h1), H]
      simp

/-- The incremental store used to witness C10: `dfIn[0]` holds entries for
variables 1 and 2, both IN-dirty at location 0. -/
def c10Store : PersistentIncDFPTData :=
  { df := { persPTData := PersistentPTData.init true,
            dfInPtsMap := ⟨{0}, fun _ => ⟨{1, 2}, fun k => ({k} : Finset Nat)⟩⟩,
            dfOutPtsMap := DFMap.empty },
    outUpdatedVarMap := fun _ => ∅,
    inUpdatedVarMap := fun l => if l = 0 then {1, 2} else ∅ }

/-- C10 witnessed at `l = 0`, `v = 1`: location 0 has an IN map entry, and
after the call the IN-dirty set `{1, 2}` shrinks to `{1, 2} ∩ {1} = {1}` —
variable 2's flag is cleared, the spared singleton keeps its flag. -/
theorem claim_C10_snapshot_dirty_witness :
    c10Store.df.hasDFInSet 0 = true
    ∧ (c10Store.updateAllDFOutFromIn 0 1 true).1.inUpdatedVarMap 0
        = c10Store.inUpdatedVarMap 0 ∩ {1} :=
  ⟨by decide, claim_C10_snapshot_dirty c10Store 0 1 (Or.inl (by decide))⟩

theorem PersistentDFPTData.updateAllDFOutFromIn_flag_change (st : PersistentDFPTData)
    (l s : Nat) (strong : Bool) :
    (st.updateAllDFOutFromIn l s strong).2
      = (fsort (st.dfInPtsMap.get l).dom).any (fun k =>
          decide ((st.updateAllDFOutFromIn l s strong).1.dfOutVal l k ≠ st.dfOutVal l k)) := by
  rw [PersistentDFPTData.updateAllDFOutFromIn_flag]
  apply list_any_congr
  intro k hk
  have hkdom : k ∈ (st.dfInPtsMap.get l).dom := (mem_fsort _ _).mp hk
  by_cases hskip : strong = true ∧ k = s
  · have h1 : decide (¬(strong = true ∧ k = s)) = false := by simp [hskip]
    have h2 : (st.updateAllDFOutFromIn l s strong).1.dfOutVal l k = st.dfOutVal l k := by
      rw [PersistentDFPTData.updateAllDFOutFromIn_dfOutVal,
        if_neg (by rintro ⟨h3, h4, h5⟩ ; exact h5 hskip)]
    rw [h1, Bool.false_and, h2]
    simp
  · have h1 : decide (¬(strong = true ∧ k = s)) = true := by simp [hskip]
    have h2 : (st.updateAllDFOutFromIn l s strong).1.dfOutVal l k
        = st.dfOutVal l k ∪ st.dfInVal l k := by
      rw [PersistentDFPTData.updateAllDFOutFromIn_dfOutVal, if_pos ⟨rfl, hkdom, hskip⟩]
    rw [h1, Bool.true_and, h2]

theorem PersistentIncDFPTData.updateAllDFOutFromInI_flag_change
    (st : PersistentIncDFPTData) (l s : Nat) (strong : Bool) :
    (st.updateAllDFOutFromIn l s strong).2
      = (fsort (st.inUpdatedVarMap l)).any (fun k =>
          decide ((st.updateAllDFOutFromIn l s strong).1.dfOutValI l k ≠ st.dfOutValI l k)) := by
  rw [PersistentIncDFPTData.updateAllDFOutFromInI_flag]
  by_cases hin : st.df.hasDFInSet l = true
  · rw [hin, Bool.true_and]
    apply list_any_congr
    intro k hk
    have hkd : k ∈ st.inUpdatedVarMap l := (mem_fsort _ _).mp hk
    by_cases hskip : strong = true ∧ k = s
    · have h1 : decide (¬(strong = true ∧ k = s)) = false := by simp [hskip]
      have h2 : (st.updateAllDFOutFromIn l s strong).1.dfOutValI l k = st.dfOutValI l k := by
        rw [PersistentIncDFPTData.updateAllDFOutFromInI_dfOutVal,
          if_neg (by rintro ⟨h3, h4, h5, h6⟩ ; exact h6 hskip)]
      rw [h1, Bool.false_and, h2]
      simp
    · have h1 : decide (¬(strong = true ∧ k = s)) = true := by simp [hskip]
      have h2 : (st.updateAllDFOutFromIn l s strong).1.dfOutValI l k
          = st.dfOutValI l k ∪ st.dfInValI l k := by
        rw [PersistentIncDFPTData.updateAllDFOutFromInI_dfOutVal,
          if_pos ⟨rfl, hkd, hin, hskip⟩]
      rw [h1, Bool.true_and, h2]
  · rw [Bool.eq_false_iff.mpr hin, Bool.false_and]
    have hcongr : ((fsort (st.inUpdatedVarMap l)).any (fun k =>
          decide ((st.updateAllDFOutFromIn l s strong).1.dfOutValI l k ≠ st.dfOutValI l k)))
        = ((fsort (st.inUpdatedVarMap l)).any (fun _ => false)) := by
      apply list_any_congr
      intro k hk
      have h2 : (st.updateAllDFOutFromIn l s strong).1.dfOutValI l k = st.dfOutValI l k := by
        rw [PersistentIncDFPTData.updateAllDFOutFromInI_dfOutVal,
          if_neg (by rintro ⟨h3, h4, h5, h6⟩ ; exact hin h5)]
      rw [h2]
      simp
    rw [hcongr]
    simp

set_option maxHeartbeats 2000000 in
/-- C1: for every store variant and every mutating points-to operation —
`addPts`, `unionPts` in all overloads, and the data-flow transfer operations
(in both the plain DF and the incremental store, where guarded operations
that skip work report no change precisely because nothing changed) — the
operation returns `true` iff the destination's points-to id, and hence its
materialised set (ids and sets are in bijection in the cache), differs from
its value immediately before the call; for the `updateAllDFOutFromIn` loops,
`true` is returned iff some iterated destination entry changed. -/
theorem claim_C1_change_flag_exact :
    (∀ (st : PersistentPTData) (k d : Nat),
      (st.addPts k d).2 = decide ((st.addPts k d).1.getPtsVal k ≠ st.getPtsVal k))
    ∧ (∀ (st : PersistentPTData) (a b : Nat),
      (st.unionPts a b).2 = decide ((st.unionPts a b).1.getPtsVal a ≠ st.getPtsVal a))
    ∧ (∀ (st : PersistentPTData) (k : Nat) (S : Finset Nat),
      (st.unionPtsSet k S).2 = decide ((st.unionPtsSet k S).1.getPtsVal k ≠ st.getPtsVal k))
    ∧ (∀ (st : PersistentDiffPTData) (k d : Nat),
      (st.addPts k d).2 = decide ((st.addPts k d).1.getPtsVal k ≠ st.getPtsVal k))
    ∧ (∀ (st : PersistentDiffPTData) (a b : Nat),
      (st.unionPts a b).2 = decide ((st.unionPts a b).1.getPtsVal a ≠ st.getPtsVal a))
    ∧ (∀ (st : PersistentDiffPTData) (k : Nat) (S : Finset Nat),
      (st.unionPtsSet k S).2 = decide ((st.unionPtsSet k S).1.getPtsVal k ≠ st.getPtsVal k))
    ∧ (∀ (st : PersistentDFPTData) (k d : Nat),
      (st.addPts k d).2 = decide ((st.addPts k d).1.getPtsVal k ≠ st.getPtsVal k))
    ∧ (∀ (st : PersistentDFPTData) (a b : Nat),
      (st.unionPts a b).2 = decide ((st.unionPts a b).1.getPtsVal a ≠ st.getPtsVal a))
    ∧ (∀ (st : PersistentDFPTData) (k : Nat) (S : Finset Nat),
      (st.unionPtsSet k S).2 = decide ((st.unionPtsSet k S).1.getPtsVal k ≠ st.getPtsVal k))
    ∧ (∀ (st : PersistentDFPTData) (sL sK dL dK : Nat),
      (st.updateDFInFromIn sL sK dL dK).2
        = decide ((st.updateDFInFromIn sL sK dL dK).1.dfInVal dL dK ≠ st.dfInVal dL dK))
    ∧ (∀ (st : PersistentDFPTData) (sL sK dL dK : Nat),
      (st.updateDFInFromOut sL sK dL dK).2
        = decide ((st.updateDFInFromOut sL sK dL dK).1.dfInVal dL dK ≠ st.dfInVal dL dK))
    ∧ (∀ (st : PersistentDFPTData) (sL sK dL dK : Nat),
      (st.updateDFOutFromIn sL sK dL dK).2
        = decide ((st.updateDFOutFromIn sL sK dL dK).1.dfOutVal dL dK ≠ st.dfOutVal dL dK))
    ∧ (∀ (st : PersistentDFPTData) (sL sK dL dK : Nat),
      (st.updateAllDFInFromIn sL sK dL dK).2
        = decide ((st.updateAllDFInFromIn sL sK dL dK).1.dfInVal dL dK ≠ st.dfInVal dL dK))
    ∧ (∀ (st : PersistentDFPTData) (sL sK dL dK : Nat),
      (st.updateAllDFInFromOut sL sK dL dK).2
        = decide ((st.updateAllDFInFromOut sL sK dL dK).1.dfInVal dL dK ≠ st.dfInVal dL dK))
    ∧ (∀ (st : PersistentDFPTData) (sL sK dK : Nat),
      (st.updateTLVPts sL sK dK).2
        = decide ((st.updateTLVPts sL sK dK).1.getPtsVal dK ≠ st.getPtsVal dK))
    ∧ (∀ (st : PersistentDFPTData) (sK dL dK : Nat),
      (st.updateATVPts sK dL dK).2
        = decide ((st.updateATVPts sK dL dK).1.dfOutVal dL dK ≠ st.dfOutVal dL dK))
    ∧ (∀ (st : PersistentDFPTData) (l s : Nat) (strong : Bool),
      (st.updateAllDFOutFromIn l s strong).2
        = (fsort (st.dfInPtsMap.get l).dom).any (fun k =>
            decide ((st.updateAllDFOutFromIn l s strong).1.dfOutVal l k ≠ st.dfOutVal l k)))
    ∧ (∀ (st : PersistentIncDFPTData) (sL sK dL dK : Nat),
      (st.updateDFInFromIn sL sK dL dK).2
        = decide ((st.updateDFInFromIn sL sK dL dK).1.dfInValI dL dK ≠ st.dfInValI dL dK))
    ∧ (∀ (st : PersistentIncDFPTData) (sL sK dL dK : Nat),
      (st.updateDFInFromOut sL sK dL dK).2
        = decide ((st.updateDFInFromOut sL sK dL dK).1.dfInValI dL dK ≠ st.dfInValI dL dK))
    ∧ (∀ (st : PersistentIncDFPTData) (sL sK dL dK : Nat),
      (st.updateDFOutFromIn sL sK dL dK).2
        = decide ((st.updateDFOutFromIn sL sK dL dK).1.dfOutValI dL dK ≠ st.dfOutValI dL dK))
    ∧ (∀ (st : PersistentIncDFPTData) (sL sK dL dK : Nat),
      (st.updateAllDFInFromIn sL sK dL dK).2
        = decide ((st.updateAllDFInFromIn sL sK dL dK).1.dfInValI dL dK ≠ st.dfInValI dL dK))
    ∧ (∀ (st : PersistentIncDFPTData) (sL sK dL dK : Nat),
      (st.updateAllDFInFromOut sL sK dL dK).2
        = decide ((st.updateAllDFInFromOut sL sK dL dK).1.dfInValI dL dK ≠ st.dfInValI dL dK))
    ∧ (∀ (st : PersistentIncDFPTData) (sL sK dK : Nat),
      (st.updateTLVPts sL sK dK).2
        = decide ((st.updateTLVPts sL sK dK).1.getPtsValI dK ≠ st.getPtsValI dK))
    ∧ (∀ (st : PersistentIncDFPTData) (sK dL dK : Nat),
      (st.updateATVPts sK dL dK).2
        = decide ((st.updateATVPts sK dL dK).1.dfOutValI dL dK ≠ st.dfOutValI dL dK))
    ∧ (∀ (st : PersistentIncDFPTData) (l s : Nat) (strong : Bool),
      (st.updateAllDFOutFromIn l s strong).2
        = (fsort (st.inUpdatedVarMap l)).any (fun k =>
            decide ((st.updateAllDFOutFromIn l s strong).1.dfOutValI l k ≠ st.dfOutValI l k)))
    ∧ (∀ (st : PersistentVersionedPTData) (k d : Nat),
      (st.addPts k d).2 = decide ((st.addPts k d).1.getPtsVal k ≠ st.getPtsVal k))
    ∧ (∀ (st : PersistentVersionedPTData) (vk d : Nat),
      (st.addPtsVK vk d).2
        = decide ((st.addPtsVK vk d).1.getPtsValVK vk ≠ st.getPtsValVK vk))
    ∧ (∀ (st : PersistentVersionedPTData) (a b : Nat),
      (st.unionPts a b).2 = decide ((st.unionPts a b).1.getPtsVal a ≠ st.getPtsVal a))
    ∧ (∀ (st : PersistentVersionedPTData) (a b : Nat),
      (st.unionPtsVK a b).2
        = decide ((st.unionPtsVK a b).1.getPtsValVK a ≠ st.getPtsValVK a))
    ∧ (∀ (st : PersistentVersionedPTData) (a b : Nat),
      (st.unionPtsVKFromK a b).2
        = decide ((st.unionPtsVKFromK a b).1.getPtsValVK a ≠ st.getPtsValVK a))
    ∧ (∀ (st : PersistentVersionedPTData) (a b : Nat),
      (st.unionPtsKFromVK a b).2
        = decide ((st.unionPtsKFromVK a b).1.getPtsVal a ≠ st.getPtsVal a))
    ∧ (∀ (st : PersistentVersionedPTData) (k : Nat) (S : Finset Nat),
      (st.unionPtsSet k S).2 = decide ((st.unionPtsSet k S).1.getPtsVal k ≠ st.getPtsVal k))
    ∧ (∀ (st : PersistentVersionedPTData) (vk : Nat) (S : Finset Nat),
      (st.unionPtsSetVK vk S).2
        = decide ((st.unionPtsSetVK vk S).1.getPtsValVK vk ≠ st.getPtsValVK vk)) := by
  refine ⟨PersistentPTData.addPts_flag, PersistentPTData.unionPts_flag,
    PersistentPTData.unionPtsSet_flag,
    fun st k d => PersistentPTData.addPts_flag st.persPTData k d,
    fun st a b => PersistentPTData.unionPts_flag st.persPTData a b,
    fun st k S => PersistentPTData.unionPtsSet_flag st.persPTData k S,
    fun st k d => PersistentPTData.addPts_flag st.persPTData k d,
    fun st a b => PersistentPTData.unionPts_flag st.persPTData a b,
    fun st k S => PersistentPTData.unionPtsSet_flag st.persPTData k S,
    PersistentDFPTData.updateDFInFromIn_flag,
    PersistentDFPTData.updateDFInFromOut_flag,
    PersistentDFPTData.updateDFOutFromIn_flag,
    fun st sL sK dL dK => PersistentDFPTData.updateDFInFromIn_flag st sL sK dL dK,
    fun st sL sK dL dK => PersistentDFPTData.updateDFInFromOut_flag st sL sK dL dK,
    PersistentDFPTData.updateTLVPts_flag,
    PersistentDFPTData.updateATVPts_flag,
    PersistentDFPTData.updateAllDFOutFromIn_flag_change,
    PersistentIncDFPTData.updateDFInFromIn_flagI,
    PersistentIncDFPTData.updateDFInFromOut_flagI,
    PersistentIncDFPTData.updateDFOutFromIn_flagI,
    PersistentIncDFPTData.updateAllDFInFromIn_flagI,
    PersistentIncDFPTData.updateAllDFInFromOut_flagI,
    PersistentIncDFPTData.updateTLVPts_flagI,
    PersistentIncDFPTData.updateATVPts_flagI,
    PersistentIncDFPTData.updateAllDFOutFromInI_flag_change,
    fun st k d => PersistentPTData.addPts_flag st.tlPTData k d,
    fun st vk d => PersistentPTData.addPts_flag st.atPTData vk d,
    fun st a b => PersistentPTData.unionPts_flag st.tlPTData a b,
    fun st a b => PersistentPTData.unionPts_flag st.atPTData a b,
    fun st a b => PersistentPTData.unionPtsFromId_flag st.atPTData a _,
    fun st a b => PersistentPTData.unionPtsFromId_flag st.tlPTData a _,
    fun st k S => PersistentPTData.unionPtsSet_flag st.tlPTData k S,
    fun st vk S => PersistentPTData.unionPtsSet_flag st.atPTData vk S⟩
